import Mathlib

/-!
# rsvndump: revision-range orchestrator and tree-edit state machine

A shallow embedding of `src/dump.c` (the orchestrator `dump()` and the revision
header writer), and of `src/dump_delta.c` (the delta-editor callbacks and the
node header writer), followed by theorems about them.

Conventions of the embedding:

* C strings are `String`; a `char *` that may be `NULL` is an `Option String`.
* `svn_revnum_t` (a `long`) and `int` are `Int`; byte lengths are `Nat`.
* Text written to stdout is recorded, in order, in a trace of `Event`s, next
  to the calls made to the repository-access collaborators.
* Functions of the repository that live outside the three embedded files
  (`log.c`, `session.c`, `property.c`, `delta.c`) and the Subversion library
  are parameters: the fields of `collab` and `property_h`.
* `_()` (gettext) is the identity; the `DEBUG_MSG` diagnostics are left out.
* No arithmetic of the embedded code leaves the range of its C type as long as
  revision numbers stay below `2^63 - 1` and the properties of a revision below
  `2^31` bytes; the model is exact in that range.
-/

namespace Rsvndump

/-! # Definitions -/

/-! ## Constants of `svn_repos.h` -/

def SVN_REPOS_DUMPFILE_MAGIC_HEADER : String := "SVN-fs-dump-format-version"
def SVN_REPOS_DUMPFILE_REVISION_NUMBER : String := "Revision-number"
def SVN_REPOS_DUMPFILE_PROP_CONTENT_LENGTH : String := "Prop-content-length"
def SVN_REPOS_DUMPFILE_CONTENT_LENGTH : String := "Content-length"
def SVN_REPOS_DUMPFILE_NODE_PATH : String := "Node-path"
def SVN_REPOS_DUMPFILE_NODE_KIND : String := "Node-kind"
def SVN_REPOS_DUMPFILE_NODE_ACTION : String := "Node-action"

/-! ## Data model of `dump.c` -/

/-- The record `log_revision_t` as `dump.c` reads it. -/
structure log_revision_t where
  revision : Int
  author : Option String
  date : Option String
  message : Option String
  deriving DecidableEq, Repr

/-- The fields of `session_t` that `dump.c` reads: `prefix_` is
`session->prefix` (the sub-path inside the repository), `file` is
`session->file` (set when the export root is a single file). -/
structure session_t where
  url : String
  encoded_url : String
  prefix_ : String
  file : Option String
  deriving DecidableEq, Repr

/-- The record `dump_options_t` as `dump_options_create` of `dump.c` fills it;
`end_` is `opts->end`, `prefix_` is `opts->prefix`. -/
structure dump_options_t where
  temp_dir : Option String
  prefix_ : Option String
  verbosity : Int
  flags : Nat
  start : Int
  end_ : Int
  deriving DecidableEq, Repr

/-- The bit masks `DF_*` of `dump.h`, whose values the embedded files do not
fix: they are parameters of the model. -/
structure dump_flags where
  DF_USE_DELTAS : Nat
  DF_KEEP_REVNUMS : Nat
  DF_INCREMENTAL : Nat
  DF_DUMP_UUID : Nat
  deriving DecidableEq, Repr

/-- What `property.h` declares and `dump.c` uses: `property_strlen(key, value)`,
`property_dump(key, value)` (the bytes it prints), and the macros `PROPS_END`
and `PROPS_END_LEN`. -/
structure property_h where
  property_strlen : String → Option String → Nat
  property_dump : String → Option String → String
  PROPS_END : String
  PROPS_END_LEN : Nat

/-- The values of `svn_node_kind_t`. -/
inductive svn_node_kind_t
  | svn_node_none
  | svn_node_file
  | svn_node_dir
  | svn_node_unknown
  deriving DecidableEq, Repr

/-- The collaborators `dump()` calls. An error return is `none`. The calls
made inside the main loop also receive the number of the iteration, so that a
collaborator may answer differently from one call to the next. -/
structure collab where
  /-- Call `svn_ra_stat(session->ra, "", -1, &dirent, ...)`: `some none` is a NULL
  dirent, `some (some r)` is `dirent->created_rev = r`. -/
  svn_ra_stat : Option (Option Int)
  /-- Call `svn_ra_check_path(session->ra, path, rev, &kind, pool)`. -/
  svn_ra_check_path : Int → Option svn_node_kind_t
  /-- Call `svn_ra_get_uuid`. -/
  svn_ra_get_uuid : Option String
  /-- Call `log_get_range(session, &start, &end, verbosity)`: the new start and end. -/
  log_get_range : Int → Int → Int → Option (Int × Int)
  /-- Call `session_check_reparent(session, rev)`: the session afterwards. -/
  session_check_reparent : session_t → Int → Option session_t
  /-- Call `log_fetch_all(session, start, end, &logs, verbosity)`. -/
  log_fetch_all : Int → Int → Int → Option (List log_revision_t)
  /-- Call `log_fetch(session, rev, end, &log, pool)`, in iteration `it`. -/
  log_fetch : Nat → Int → Int → Option log_revision_t
  /-- Call `svn_ra_do_diff2(..., dest, ...)` in iteration `it`: `true` is an error. -/
  svn_ra_do_diff2 : Nat → Int → Bool
  /-- Call `reporter->set_path(report_baton, "", src, start_empty, ...)`. -/
  reporter_set_path : Nat → Int → Bool → Bool
  /-- Call `reporter->finish_report(report_baton, subpool)`. -/
  reporter_finish_report : Nat → Bool

/-- One observable action of `dump()`. `dump_do_diff src dest failed` records
that the call `dump_do_diff(session, src, dest, ...)` has returned, with a
non-zero value when `failed`; the calls it made stand before it. -/
inductive Event
  | svn_ra_stat
  | svn_ra_check_path (rev : Int)
  | svn_ra_get_uuid
  | log_get_range (start end_ : Int)
  | session_check_reparent (rev : Int)
  | log_fetch_all (start end_ : Int)
  | log_fetch (rev end_ : Int)
  | printf (text : String)
  | fprintf_stderr (text : String)
  | dump_revision_header (local_revnum : Int) (text : String)
  | delta_setup_editor (local_rev : Int)
  | dump_do_diff (src dest : Int) (failed : Bool)
  | svn_ra_do_diff2 (dest : Int)
  | reporter_set_path (src : Int) (start_empty : Bool)
  | reporter_finish_report
  deriving DecidableEq, Repr

/-- How a run of `dump()` ends: with a return value, or (in the model) out of
fuel, or by reading the log list outside its bounds. -/
inductive Ret
  | returned (code : Nat)
  | out_of_fuel
  | out_of_bounds
  deriving DecidableEq, Repr

/-! ## `dump.c` -/

/-- The value `INT_MAX` where an `int` has 32 bits. -/
def INT_MAX : Int := 2147483647

/-- The value that a sum has once it is stored in an `int` of 32 bits: the sum
itself when it lies in the range of `int`, and the sum reduced modulo 2^32
into that range otherwise. -/
def to_int (x : Int) : Int :=
  (x + 2147483648) % 4294967296 - 2147483648

/-- Function `dump_revision_header` (dump.c 51-74): the text it prints. The argument
`opts` is not read by the function. The local `props_length` is an `int`: every
`+=` stores its sum through `to_int`, and `%d` prints the stored value. -/
def dump_revision_header (P : property_h) (revision : log_revision_t)
    (local_revnum : Int) (_opts : dump_options_t) : String :=
  let props_length : Int := 0
  let props_length := to_int (props_length + P.property_strlen "svn:log" revision.message)
  let props_length := to_int (props_length + P.property_strlen "svn:author" revision.author)
  let props_length := to_int (props_length + P.property_strlen "svn:date" revision.date)
  let props_length :=
    if props_length > 0 then to_int (props_length + P.PROPS_END_LEN) else props_length
  SVN_REPOS_DUMPFILE_REVISION_NUMBER ++ ": " ++ toString local_revnum ++ "\n"
    ++ (SVN_REPOS_DUMPFILE_PROP_CONTENT_LENGTH ++ ": " ++ toString props_length ++ "\n")
    ++ (SVN_REPOS_DUMPFILE_CONTENT_LENGTH ++ ": " ++ toString props_length ++ "\n\n")
    ++ (if props_length > 0 then
          P.property_dump "svn:log" revision.message
            ++ P.property_dump "svn:author" revision.author
            ++ P.property_dump "svn:date" revision.date
            ++ (P.PROPS_END ++ "\n")
        else "")

/-- Function `dump_do_diff` (dump.c 78-118): `true` is the return value 1. -/
def dump_do_diff (env : collab) (it : Nat) (src dest : Int) : Bool × List Event :=
  if env.svn_ra_do_diff2 it dest then
    (true, [Event.svn_ra_do_diff2 dest])
  else if env.reporter_set_path it src (decide (src = dest)) then
    (true, [Event.svn_ra_do_diff2 dest, Event.reporter_set_path src (decide (src = dest))])
  else if env.reporter_finish_report it then
    (true, [Event.svn_ra_do_diff2 dest, Event.reporter_set_path src (decide (src = dest)),
      Event.reporter_finish_report])
  else
    (false, [Event.svn_ra_do_diff2 dest, Event.reporter_set_path src (decide (src = dest)),
      Event.reporter_finish_report])

/-- Function `dump_determine_head` (dump.c 122-144): the head revision, or the return
value 1 as `none`. -/
def dump_determine_head (env : collab) (session : session_t) : Option Int × List Event :=
  match env.svn_ra_stat with
  | none => (none, [Event.svn_ra_stat])
  | some none =>
    (none, [Event.svn_ra_stat,
      Event.fprintf_stderr ("ERROR: URL '" ++ session.url ++ "' not found in HEAD revision\n")])
  | some (some rev) => (some rev, [Event.svn_ra_stat])

/-- Function `dump_check_path` (dump.c 148-164). -/
def dump_check_path (env : collab) (rev : Int) : svn_node_kind_t :=
  match env.svn_ra_check_path rev with
  | none => svn_node_kind_t.svn_node_none
  | some kind => kind

/-- Function `dump_fetch_uuid` (dump.c 168-185). -/
def dump_fetch_uuid (env : collab) : Option String :=
  env.svn_ra_get_uuid

/-- The message of dump.c 242, 249 and 254. -/
def not_found_message (session : session_t) (rev : Int) : String :=
  "ERROR: URL '" ++ session.url ++ "' not found in revision " ++ toString rev ++ "\n"

/-- The state `dump()` has built when it reaches its main loop: the options
with the resolved range, the session after the reparent check, the log list
and `logs_fetched`. -/
structure prepared where
  opts : dump_options_t
  session : session_t
  logs : List log_revision_t
  logs_fetched : Bool
  deriving DecidableEq, Repr

/-- Lines 230-257 of `dump()`: determine or check the start and end revision.
`Except.error` is an early `return 1`. -/
def dump_resolve_range (env : collab) (session : session_t) (opts : dump_options_t) :
    Except (List Event) (dump_options_t × List Event) :=
  if opts.end_ = -1 then
    match dump_determine_head env session with
    | (none, ev) => Except.error ev
    | (some head, ev) =>
      let opts : dump_options_t := { opts with end_ := head }
      if opts.start = 0 then
        match env.log_get_range opts.start opts.end_ opts.verbosity with
        | none => Except.error (ev ++ [Event.log_get_range opts.start opts.end_])
        | some (s, e) =>
          Except.ok ({ opts with start := s, end_ := e },
            ev ++ [Event.log_get_range opts.start opts.end_])
      else if dump_check_path env opts.start = svn_node_kind_t.svn_node_none then
        Except.error (ev ++ [Event.svn_ra_check_path opts.start,
          Event.fprintf_stderr (not_found_message session opts.start)])
      else
        Except.ok (opts, ev ++ [Event.svn_ra_check_path opts.start])
  else if dump_check_path env opts.start = svn_node_kind_t.svn_node_none then
    Except.error [Event.svn_ra_check_path opts.start,
      Event.fprintf_stderr (not_found_message session opts.start)]
  else if dump_check_path env opts.end_ = svn_node_kind_t.svn_node_none then
    Except.error [Event.svn_ra_check_path opts.start, Event.svn_ra_check_path opts.end_,
      Event.fprintf_stderr (not_found_message session opts.end_)]
  else
    Except.ok (opts, [Event.svn_ra_check_path opts.start, Event.svn_ra_check_path opts.end_])

/-- Lines 268-280 of `dump()`: the logs of the whole range are fetched up
front when the dump is incremental and the start revision is not 0. -/
def dump_prefetch (DF : dump_flags) (env : collab) (opts : dump_options_t) :
    Except (Ret × List Event) (List log_revision_t × Bool × List Event) :=
  if opts.flags &&& DF.DF_INCREMENTAL ≠ 0 ∧ opts.start ≠ 0 then
    match env.log_fetch_all opts.start opts.end_ opts.verbosity with
    | none => Except.error (Ret.returned 1, [Event.log_fetch_all opts.start opts.end_])
    | some logs => Except.ok (logs, true, [Event.log_fetch_all opts.start opts.end_])
  else Except.ok ([], false, [])

/-- Lines 282-287 of `dump()`: the end revision is read from the last
pre-fetched log, `logs.elements[logs.size-1]`; `none` when the list is empty. -/
def dump_end_from_logs (logs : List log_revision_t) (logs_fetched : Bool)
    (opts : dump_options_t) : Option dump_options_t :=
  if logs_fetched = true then
    match logs.getLast? with
    | none => none
    | some last => some { opts with end_ := last.revision }
  else some opts

/-- Lines 289-295 of `dump()`: there are no subdirectories at revision 0. -/
def dump_raise_start (session : session_t) (opts : dump_options_t) : dump_options_t :=
  if opts.start = 0 then
    if session.prefix_.length > 0 then { opts with start := 1 } else opts
  else opts

/-- Lines 268-295 of `dump()`: the pre-fetch of the logs, the end revision
read from the last fetched log, and the start revision raised to 1 for a
sub-path. `Except.error` carries how the run ends early. -/
def dump_fetch_logs (DF : dump_flags) (env : collab) (session : session_t)
    (opts : dump_options_t) : Except (Ret × List Event) (prepared × List Event) :=
  match dump_prefetch DF env opts with
  | Except.error e => Except.error e
  | Except.ok (logs, logs_fetched, ev) =>
    match dump_end_from_logs logs logs_fetched opts with
    | none => Except.error (Ret.out_of_bounds, ev)
    | some opts =>
      Except.ok (prepared.mk (dump_raise_start session opts) session logs logs_fetched, ev)

/-- Lines 297-311 of `dump()`: the dumpfile header. `none` is the early
`return 1` after a failed UUID fetch. -/
def dump_write_header (DF : dump_flags) (env : collab) (opts : dump_options_t) :
    Option Unit × List Event :=
  let ev := [Event.printf (SVN_REPOS_DUMPFILE_MAGIC_HEADER ++ ": "),
    Event.printf (if opts.flags &&& DF.DF_USE_DELTAS ≠ 0 then "3\n\n" else "2\n\n")]
  if opts.flags &&& DF.DF_DUMP_UUID ≠ 0 then
    match dump_fetch_uuid env with
    | none => (none, ev ++ [Event.svn_ra_get_uuid])
    | some uuid => (some (), ev ++ [Event.svn_ra_get_uuid, Event.printf ("UUID: " ++ uuid ++ "\n\n")])
  else (some (), ev)

/-- Lines 230-311 of `dump()`: everything before the main loop. -/
def dump_prepare (DF : dump_flags) (env : collab) (session : session_t)
    (opts : dump_options_t) : Except (Ret × List Event) (prepared × List Event) :=
  match dump_resolve_range env session opts with
  | Except.error ev => Except.error (Ret.returned 1, ev)
  | Except.ok (opts, ev1) =>
    match env.session_check_reparent session opts.start with
    | none => Except.error (Ret.returned 1, ev1 ++ [Event.session_check_reparent opts.start])
    | some session =>
      let ev2 := ev1 ++ [Event.session_check_reparent opts.start]
      match dump_fetch_logs DF env session opts with
      | Except.error (r, ev) => Except.error (r, ev2 ++ ev)
      | Except.ok (c, ev3) =>
        match dump_write_header DF env c.opts with
        | (none, ev4) => Except.error (Ret.returned 1, ev2 ++ ev3 ++ ev4)
        | (some _, ev4) => Except.ok (c, ev2 ++ ev3 ++ ev4)

/-- The local variables of the main loop of `dump()`; `it` counts the
iterations done so far. -/
structure loop_state where
  logs : List log_revision_t
  global_rev : Int
  local_rev : Int
  list_idx : Int
  it : Nat
  deriving DecidableEq, Repr

/-- The element `((log_revision_t *)logs.elements)[list_idx]`, when the index
is inside the list. -/
def logs_at (logs : List log_revision_t) (list_idx : Int) : Option log_revision_t :=
  if 0 ≤ list_idx then logs[list_idx.toNat]? else none

/-- Lines 341-354 of `dump()`: the diff base. -/
def dump_diff_base (c : prepared) (global_rev : Int) : Int :=
  let diff_rev := global_rev - 1
  let diff_rev := if diff_rev < 0 then 0 else diff_rev
  if c.session.prefix_.length > 0 ∧ diff_rev < c.opts.start then
    if c.session.file.isSome then c.opts.end_ else c.opts.start
  else diff_rev

/-- The message of dump.c 365. -/
def dumped_message (c : prepared) (rev : Int) : List Event :=
  if c.opts.verbosity ≥ 0 then
    [Event.fprintf_stderr ("* Dumped revision " ++ toString rev ++ ".\n")]
  else []

/-- Lines 325-336 of `dump()`: the log of the revision to dump is fetched and
appended to the list, or the index into the pre-fetched list is advanced.
`Except.error` is the early `return 1`. -/
def dump_obtain_log (env : collab) (c : prepared) (st : loop_state) :
    Except (List Event) (List log_revision_t × Int × List Event) :=
  if c.logs_fetched = false then
    match env.log_fetch st.it st.global_rev c.opts.end_ with
    | none => Except.error [Event.log_fetch st.global_rev c.opts.end_]
    | some log =>
      Except.ok (st.logs ++ [log], ((st.logs ++ [log]).length : Int) - 1,
        [Event.log_fetch st.global_rev c.opts.end_])
  else Except.ok (st.logs, st.list_idx + 1, [])

/-- One pass through the body of the do-while loop of `dump()` (lines
320-370): the events of the pass, and either the way the run ends inside the
body or the loop variables at the end of the body. The node records that the
editor callbacks print during the diff belong to `delta.c` and are not part of
the trace. -/
def dump_iteration (P : property_h) (env : collab) (c : prepared) (st : loop_state) :
    List Event × Sum Ret loop_state :=
  match dump_obtain_log env c st with
  | Except.error ev => (ev, Sum.inl (Ret.returned 1))
  | Except.ok (logs, list_idx, ev1) =>
    match logs_at logs list_idx with
    | none => (ev1, Sum.inl Ret.out_of_bounds)
    | some log =>
      let ev2 := ev1 ++ [Event.dump_revision_header st.local_rev
        (dump_revision_header P log st.local_rev c.opts)]
      let diff_rev := dump_diff_base c st.global_rev
      let ev3 := ev2 ++ [Event.delta_setup_editor st.local_rev]
      match dump_do_diff env st.it diff_rev log.revision with
      | (true, evd) =>
        (ev3 ++ evd ++ [Event.dump_do_diff diff_rev log.revision true], Sum.inl (Ret.returned 1))
      | (false, evd) =>
        (ev3 ++ evd ++ [Event.dump_do_diff diff_rev log.revision false]
            ++ dumped_message c log.revision,
          Sum.inr { logs := logs, global_rev := log.revision + 1,
                    local_rev := st.local_rev + 1, list_idx := list_idx, it := st.it + 1 })

/-- The do-while loop of `dump()` (lines 319-371), run for at most `fuel`
iterations. -/
def dump_loop (P : property_h) (env : collab) (c : prepared) :
    Nat → loop_state → Ret × List Event
  | 0, _ => (Ret.out_of_fuel, [])
  | fuel + 1, st =>
    match dump_iteration P env c st with
    | (ev, Sum.inl r) => (r, ev)
    | (ev, Sum.inr st1) =>
      if st1.global_rev ≤ c.opts.end_ then
        ((dump_loop P env c fuel st1).1, ev ++ (dump_loop P env c fuel st1).2)
      else (Ret.returned 0, ev)

/-- Lines 313-316 of `dump()`: the pre-dumping initialisation. -/
def dump_loop_init (c : prepared) : loop_state :=
  { logs := c.logs, global_rev := c.opts.start,
    local_rev := if c.opts.start = 0 then 0 else 1, list_idx := 0, it := 0 }

/-- Function `dump` (dump.c 223-374): how the run ends and what it did, the main loop
being given `fuel` iterations. -/
def dump (DF : dump_flags) (P : property_h) (env : collab) (session : session_t)
    (opts : dump_options_t) (fuel : Nat) : Ret × List Event :=
  match dump_prepare DF env session opts with
  | Except.error e => e
  | Except.ok (c, ev) =>
    ((dump_loop P env c fuel (dump_loop_init c)).1,
      ev ++ (dump_loop P env c fuel (dump_loop_init c)).2)

/-! ## `dump_delta.c`

The delta-editor callbacks receive their batons as `void *`. A baton is
modelled by what it points to (`pointer`): the one `baton_t` of the diff pass,
whose only member is the options, or one of the `node_baton_t` objects
allocated so far. Casting a baton and reading a member is defined only when
the object behind it has that type; anything else is undefined behaviour,
`none`. A member that the code has not assigned is `none` as well. -/

namespace DumpDelta

/-- The record `property_t`: key and value (`NULL` is `none`). -/
structure property_t where
  key : String
  value : Option String
  deriving DecidableEq, Repr

/-- The record `logentry_t` as `dump_delta_revision` reads it. -/
structure logentry_t where
  revision : Int
  author : property_t
  date : property_t
  msg : property_t
  deriving DecidableEq, Repr

/-- The fields of `dump_options_t` that `dump_delta.c` reads. The stream
`opts->output` is the field `output` of `edit_state`. -/
structure dump_options_t where
  prefix_is_file : Bool
  repo_eurl : String
  user_prefix : Option String
  keep_revnums : Bool
  repo_dir : String
  deriving DecidableEq, Repr

/-- The values of `nodeaction_t` that `dump_delta.c` names. -/
inductive nodeaction_t
  | NA_CHANGE
  | NA_ADD
  | NA_DELETE
  | NA_REPLACE
  deriving DecidableEq, Repr

/-- The values of `nodekind_t` that `dump_delta.c` names. -/
inductive nodekind_t
  | NK_FILE
  | NK_DIRECTORY
  deriving DecidableEq, Repr

/-- What a `void *` baton points to. -/
inductive pointer
  | baton
  | node (id : Nat)
  deriving DecidableEq, Repr

/-- The record `node_baton_t` (dump_delta.c 47-55). -/
structure node_baton_t where
  baton : pointer
  path : Option String
  filename : Option String
  props : List property_t
  action : Option nodeaction_t
  kind : Option nodekind_t
  dumped : Bool
  deriving DecidableEq, Repr

/-- The state of one diff pass: the node batons allocated so far (a node is
named by its position), the text written to `opts->output`, the text written
to stderr, and the nodes for which `dump_delta_node_header` has run, in
order. -/
structure edit_state where
  nodes : List node_baton_t
  output : String
  errors : String
  headers : List Nat
  deriving DecidableEq, Repr

/-- The state at the start of a diff pass. -/
def edit_state.init : edit_state :=
  { nodes := [], output := "", errors := "", headers := [] }

/-- The read `((baton_t *)p)->opts`: the options, when `p` points to the `baton_t`. -/
def baton_opts (opts : dump_options_t) : pointer → Option dump_options_t
  | pointer.baton => some opts
  | pointer.node _ => none

/-- The cast `(node_baton_t *)p`, dereferenced: the node and its position, when `p`
points to a node baton. -/
def node_of (s : edit_state) : pointer → Option (Nat × node_baton_t)
  | pointer.baton => none
  | pointer.node id =>
    match s.nodes[id]? with
    | none => none
    | some node => some (id, node)

/-- The value `strrchr(s, c) + 1`: the text after the last `c` of `s`; `none` when `c`
does not occur (`strrchr` returns `NULL`). -/
def strrchr_plus_one : List Char → Char → Option (List Char)
  | [], _ => none
  | x :: rest, c =>
    match strrchr_plus_one rest c with
    | some tail => some tail
    | none => if x = c then some rest else none

/-- Function `dump_delta_node_create` (dump_delta.c 63-70): a new node baton; `path`,
`filename`, `action` and `kind` are left unassigned. -/
def dump_delta_node_create (s : edit_state) (edit_baton : pointer) : edit_state × Nat :=
  ({ s with nodes := s.nodes ++ [{ baton := edit_baton, path := none, filename := none,
                                   props := [], action := none, kind := none,
                                   dumped := false }] },
    s.nodes.length)

/-- The text of the `switch` of dump_delta.c 99-112. -/
def node_action_text : nodeaction_t → String
  | nodeaction_t.NA_CHANGE => "change\n"
  | nodeaction_t.NA_ADD => "add\n"
  | nodeaction_t.NA_DELETE => "delete\n"
  | nodeaction_t.NA_REPLACE => "replace\n"

/-- The text that `dump_delta_node_header` (dump_delta.c 80-114) writes for
`node`. -/
def node_header_text (opts : dump_options_t) (node : node_baton_t) : Option String :=
  match baton_opts opts node.baton with
  | none => none
  | some opts =>
    let path : Option String :=
      if opts.prefix_is_file = true then
        (strrchr_plus_one opts.repo_eurl.data '/').map String.mk
      else node.path
    match path, node.action with
    | some path, some action =>
      let path_line : String :=
        match opts.user_prefix with
        | some user_prefix =>
          SVN_REPOS_DUMPFILE_NODE_PATH ++ ": " ++ user_prefix ++ path ++ "\n"
        | none => SVN_REPOS_DUMPFILE_NODE_PATH ++ ": " ++ path ++ "\n"
      let kind_line : Option String :=
        if action ≠ nodeaction_t.NA_DELETE then
          node.kind.map (fun kind =>
            SVN_REPOS_DUMPFILE_NODE_KIND ++ ": "
              ++ (if kind = nodekind_t.NK_FILE then "file" else "dir") ++ "\n")
        else some ""
      match kind_line with
      | none => none
      | some kind_line =>
        some (path_line ++ kind_line ++ (SVN_REPOS_DUMPFILE_NODE_ACTION ++ ": ")
          ++ node_action_text action ++ "\n\n")
    | _, _ => none

/-- Function `dump_delta_node_header` (dump_delta.c 80-117) on the node at position
`id`: the header is written and the node is marked as dumped. -/
def dump_delta_node_header (opts : dump_options_t) (s : edit_state) (id : Nat) :
    Option edit_state :=
  match s.nodes[id]? with
  | none => none
  | some node =>
    match node_header_text opts node with
    | none => none
    | some text =>
      some { s with nodes := s.nodes.set id { node with dumped := true },
                    output := s.output ++ text,
                    headers := s.headers ++ [id] }

/-- The statement `if (!node->dumped) dump_delta_node_header(node);` that
`delete_entry`, `add_directory`, `add_file` and `open_file` run on the parent
and `close_file` runs on the node itself. -/
def dump_unless_dumped (opts : dump_options_t) (s : edit_state) (id : Nat)
    (node : node_baton_t) : Option edit_state :=
  if node.dumped = false then dump_delta_node_header opts s id else some s

/-- Function `set_target_revision` (dump_delta.c 123-128). -/
def set_target_revision (s : edit_state) (_target_revision : Int) : Option edit_state :=
  some s

/-- Function `open_root` (dump_delta.c 130-139): the state and `*root_baton`. -/
def open_root (s : edit_state) (edit_baton : pointer) : Option (edit_state × pointer) :=
  let (s1, id) := dump_delta_node_create s edit_baton
  match s1.nodes[id]? with
  | none => none
  | some node =>
    some ({ s1 with nodes := s1.nodes.set id { node with dumped := true } }, pointer.node id)

/-- Function `delete_entry` (dump_delta.c 141-162). The options are read as
`((baton_t *)parent_baton)->opts`, and the parent as
`(node_baton_t *)parent_baton`. -/
def delete_entry (opts : dump_options_t) (s : edit_state) (path : String)
    (parent_baton : pointer) : Option edit_state :=
  match node_of s parent_baton with
  | none => none
  | some (id, parent) =>
    match dump_unless_dumped opts s id parent with
    | none => none
    | some s1 =>
      match baton_opts opts parent_baton with
      | none => none
      | some opts =>
        let path_line : String :=
          match opts.user_prefix with
          | some user_prefix =>
            SVN_REPOS_DUMPFILE_NODE_PATH ++ ": " ++ user_prefix ++ path ++ "\n"
          | none => SVN_REPOS_DUMPFILE_NODE_PATH ++ ": " ++ path ++ "\n"
        some { s1 with output := s1.output ++ path_line
                         ++ (SVN_REPOS_DUMPFILE_NODE_ACTION ++ ": delete\n\n\n") }

/-- The body shared by `add_directory` (dump_delta.c 164-183), `add_file`
(224-243) and `open_file` (245-263): the parent is dumped if needed, and a node
of the given kind and action is created. -/
def create_child (opts : dump_options_t) (s : edit_state) (path : String)
    (parent_baton : pointer) (kind : nodekind_t) (action : nodeaction_t) :
    Option (edit_state × Nat) :=
  match node_of s parent_baton with
  | none => none
  | some (id, parent) =>
    match dump_unless_dumped opts s id parent with
    | none => none
    | some s1 =>
      let (s2, child) := dump_delta_node_create s1 parent.baton
      match s2.nodes[child]? with
      | none => none
      | some node =>
        let node1 : node_baton_t :=
          { node with kind := some kind, path := some path, action := some action }
        some ({ s2 with nodes := s2.nodes.set child node1 }, child)

/-- Function `add_directory` (dump_delta.c 164-183): the state and `*child_baton`. -/
def add_directory (opts : dump_options_t) (s : edit_state) (path : String)
    (parent_baton : pointer) : Option (edit_state × pointer) :=
  match create_child opts s path parent_baton nodekind_t.NK_DIRECTORY nodeaction_t.NA_ADD with
  | none => none
  | some (s1, child) => some (s1, pointer.node child)

/-- Function `open_directory` (dump_delta.c 186-190): `*child_baton` is not assigned. -/
def open_directory (s : edit_state) (path : String) (_parent_baton : pointer) :
    Option edit_state :=
  some { s with errors := s.errors ++ ("open_directory(" ++ path ++ ")\n") }

/-- The body shared by `change_dir_prop` (dump_delta.c 193-208) and
`change_file_prop` (283-298): the property is appended to the node's list. -/
def append_prop (s : edit_state) (node_baton : pointer) (name : String)
    (value : Option String) : Option edit_state :=
  match node_of s node_baton with
  | none => none
  | some (id, node) =>
    let node1 : node_baton_t := { node with props := node.props ++ [property_t.mk name value] }
    some { s with nodes := s.nodes.set id node1 }

/-- Function `change_dir_prop` (dump_delta.c 193-208). -/
def change_dir_prop (s : edit_state) (dir_baton : pointer) (name : String)
    (value : Option String) : Option edit_state :=
  append_prop s dir_baton name value

/-- Function `close_directory` (dump_delta.c 210-216): the property list is freed. -/
def close_directory (s : edit_state) (dir_baton : pointer) : Option edit_state :=
  match node_of s dir_baton with
  | none => none
  | some (id, node) => some { s with nodes := s.nodes.set id { node with props := [] } }

/-- Function `absent_directory` (dump_delta.c 218-222). -/
def absent_directory (s : edit_state) (path : String) (_parent_baton : pointer) :
    Option edit_state :=
  some { s with errors := s.errors ++ ("absent_directory(" ++ path ++ ")\n") }

/-- Function `add_file` (dump_delta.c 224-243): the state and `*file_baton`. -/
def add_file (opts : dump_options_t) (s : edit_state) (path : String)
    (parent_baton : pointer) : Option (edit_state × pointer) :=
  match create_child opts s path parent_baton nodekind_t.NK_FILE nodeaction_t.NA_ADD with
  | none => none
  | some (s1, child) => some (s1, pointer.node child)

/-- Function `open_file` (dump_delta.c 245-263): the state and what the function
stores in `*file_baton`. The node is created, and nothing is stored in
`*file_baton`. -/
def open_file (opts : dump_options_t) (s : edit_state) (path : String)
    (parent_baton : pointer) : Option (edit_state × Option pointer) :=
  match create_child opts s path parent_baton nodekind_t.NK_FILE nodeaction_t.NA_CHANGE with
  | none => none
  | some (s1, _) => some (s1, none)

/-- Function `apply_textdelta` (dump_delta.c 265-281): the name pattern of the
temporary file is stored in the node. -/
def apply_textdelta (opts : dump_options_t) (s : edit_state) (file_baton : pointer) :
    Option edit_state :=
  match node_of s file_baton with
  | none => none
  | some (id, node) =>
    match baton_opts opts node.baton with
    | none => none
    | some opts =>
      let node1 : node_baton_t := { node with filename := some (opts.repo_dir ++ "/XXXXXX") }
      some { s with nodes := s.nodes.set id node1 }

/-- Function `change_file_prop` (dump_delta.c 283-298). -/
def change_file_prop (s : edit_state) (file_baton : pointer) (name : String)
    (value : Option String) : Option edit_state :=
  append_prop s file_baton name value

/-- Function `close_file` (dump_delta.c 300-314): the node is dumped if it has not
been, and the property list is freed. -/
def close_file (opts : dump_options_t) (s : edit_state) (file_baton : pointer) :
    Option edit_state :=
  match node_of s file_baton with
  | none => none
  | some (id, node) =>
    match dump_unless_dumped opts s id node with
    | none => none
    | some s1 =>
      match s1.nodes[id]? with
      | none => none
      | some node1 => some { s1 with nodes := s1.nodes.set id { node1 with props := [] } }

/-- Function `absent_file` (dump_delta.c 316-320). -/
def absent_file (s : edit_state) (path : String) (_parent_baton : pointer) :
    Option edit_state :=
  some { s with errors := s.errors ++ ("absent_file(" ++ path ++ ")\n") }

/-- Function `close_edit` (dump_delta.c 322-326). -/
def close_edit (s : edit_state) : Option edit_state :=
  some { s with errors := s.errors ++ "close_edit\n" }

/-- Function `abort_edit` (dump_delta.c 328-332). -/
def abort_edit (s : edit_state) : Option edit_state :=
  some { s with errors := s.errors ++ "abort_edit\n" }

/-- One call of the diff driver into the editor. -/
inductive callback
  | set_target_revision (target_revision : Int)
  | open_root (edit_baton : pointer)
  | delete_entry (path : String) (parent_baton : pointer)
  | add_directory (path : String) (parent_baton : pointer)
  | open_directory (path : String) (parent_baton : pointer)
  | change_dir_prop (dir_baton : pointer) (name : String) (value : Option String)
  | close_directory (dir_baton : pointer)
  | absent_directory (path : String) (parent_baton : pointer)
  | add_file (path : String) (parent_baton : pointer)
  | open_file (path : String) (parent_baton : pointer)
  | apply_textdelta (file_baton : pointer)
  | change_file_prop (file_baton : pointer) (name : String) (value : Option String)
  | close_file (file_baton : pointer)
  | absent_file (path : String) (parent_baton : pointer)
  | close_edit
  | abort_edit
  deriving DecidableEq, Repr

/-- The state after one callback. -/
def step (opts : dump_options_t) (s : edit_state) : callback → Option edit_state
  | callback.set_target_revision r => set_target_revision s r
  | callback.open_root b => (open_root s b).map Prod.fst
  | callback.delete_entry path b => delete_entry opts s path b
  | callback.add_directory path b => (add_directory opts s path b).map Prod.fst
  | callback.open_directory path b => open_directory s path b
  | callback.change_dir_prop b name value => change_dir_prop s b name value
  | callback.close_directory b => close_directory s b
  | callback.absent_directory path b => absent_directory s path b
  | callback.add_file path b => (add_file opts s path b).map Prod.fst
  | callback.open_file path b => (open_file opts s path b).map Prod.fst
  | callback.apply_textdelta b => apply_textdelta opts s b
  | callback.change_file_prop b name value => change_file_prop s b name value
  | callback.close_file b => close_file opts s b
  | callback.absent_file path b => absent_file s path b
  | callback.close_edit => close_edit s
  | callback.abort_edit => abort_edit s

/-- The state after a sequence of callbacks. -/
def run (opts : dump_options_t) : edit_state → List callback → Option edit_state
  | s, [] => some s
  | s, c :: rest =>
    match step opts s c with
    | none => none
    | some s1 => run opts s1 rest

/-- Lines 348-372 of `dump_delta_revision`: the text of the revision header.
`property_strlen(&p)` and `property_dump(&p, output)` are
`P.property_strlen p.key p.value` and `P.property_dump p.key p.value`. The
local `props_length` is an `int` (line 343): every `+=` stores its sum through
`to_int`, and `%d` prints the stored value. -/
def dump_delta_revision_header (P : property_h) (opts : dump_options_t)
    (entry : logentry_t) (local_revnum : Int) : String :=
  let props_length : Int := 0
  let props_length :=
    to_int (props_length + P.property_strlen entry.author.key entry.author.value)
  let props_length := to_int (props_length + P.property_strlen entry.date.key entry.date.value)
  let props_length := to_int (props_length + P.property_strlen entry.msg.key entry.msg.value)
  let props_length :=
    if props_length > 0 then to_int (props_length + P.PROPS_END_LEN) else props_length
  (if opts.keep_revnums = true then
      SVN_REPOS_DUMPFILE_REVISION_NUMBER ++ ": " ++ toString entry.revision ++ "\n"
    else SVN_REPOS_DUMPFILE_REVISION_NUMBER ++ ": " ++ toString local_revnum ++ "\n")
    ++ (SVN_REPOS_DUMPFILE_PROP_CONTENT_LENGTH ++ ": " ++ toString props_length ++ "\n")
    ++ (SVN_REPOS_DUMPFILE_CONTENT_LENGTH ++ ": " ++ toString props_length ++ "\n\n")
    ++ (if props_length > 0 then
          P.property_dump entry.msg.key entry.msg.value
            ++ P.property_dump entry.author.key entry.author.value
            ++ P.property_dump entry.date.key entry.date.value
            ++ P.PROPS_END ++ "\n"
        else "")

end DumpDelta

/-! ## `main.c`

The functions of the C library that `parse_revnum` calls are modelled on the
characters of the string: `strchr` and `strtol` give offsets into it, where
the C functions give pointers. -/

/-- The value `LONG_MAX` where a `long` has 64 bits. -/
def LONG_MAX : Int := 9223372036854775807

/-- The value `LONG_MIN` where a `long` has 64 bits. -/
def LONG_MIN : Int := -9223372036854775808

/-- The test `isspace(c)` of the C locale: blank, and tab to carriage return. -/
def isspace (c : Char) : Bool :=
  c.toNat = 32 || (9 ≤ c.toNat && c.toNat ≤ 13)

/-- The test `isdigit(c)`. -/
def isdigit (c : Char) : Bool :=
  48 ≤ c.toNat && c.toNat ≤ 57

/-- The value of a decimal digit. -/
def digit_value (c : Char) : Nat :=
  c.toNat - 48

/-- The decimal digits at the front of a string: the number they denote after
the digits read so far (`acc`), and how many there are. -/
def read_digits : Nat → List Char → Nat × Nat
  | acc, [] => (acc, 0)
  | acc, c :: rest =>
    if isdigit c = true then
      ((read_digits (acc * 10 + digit_value c) rest).1,
        (read_digits (acc * 10 + digit_value c) rest).2 + 1)
    else (acc, 0)

/-- The number of characters at the front of a string that `isspace` accepts. -/
def count_space : List Char → Nat
  | [] => 0
  | c :: rest => if isspace c = true then count_space rest + 1 else 0

/-- What `strtol(nptr, &end_ptr, 10)` gives: the value, the offset of
`end_ptr` from `nptr`, and whether `errno` was set to `ERANGE`. -/
structure strtol_t where
  value : Int
  end_ptr : Nat
  erange : Bool
  deriving DecidableEq, Repr

/-- The sign that `strtol` reads: whether it is a minus, and its length. -/
def read_sign : List Char → Bool × Nat
  | [] => (false, 0)
  | c :: _ => if c = '-' then (true, 1) else if c = '+' then (false, 1) else (false, 0)

/-- Function `strtol` of ISO C with base 10: white space, an optional sign and
decimal digits are read; without a digit the value is 0 and `end_ptr` is
`nptr`; a value outside of the range of `long` is clamped and sets `errno` to
`ERANGE`. No other value is stored in `errno`. -/
def strtol (nptr : List Char) : strtol_t :=
  let spaces := count_space nptr
  let sign := read_sign (nptr.drop spaces)
  let digits := read_digits 0 (nptr.drop (spaces + sign.2))
  if digits.2 = 0 then { value := 0, end_ptr := 0, erange := false }
  else
    let value : Int := if sign.1 = true then -(digits.1 : Int) else (digits.1 : Int)
    let end_ptr := spaces + sign.2 + digits.2
    if value > LONG_MAX then { value := LONG_MAX, end_ptr := end_ptr, erange := true }
    else if value < LONG_MIN then { value := LONG_MIN, end_ptr := end_ptr, erange := true }
    else { value := value, end_ptr := end_ptr, erange := false }

/-- Function `strchr`: the offset of the first `c` in the string, `none` for
`NULL`. -/
def strchr : List Char → Char → Option Nat
  | [], _ => none
  | x :: rest, c =>
    if x = c then some 0
    else
      match strchr rest c with
      | none => none
      | some i => some (i + 1)

/-- The test `strncmp("HEAD", s, 4) == 0`: the first four characters of `s`
are `HEAD`. -/
def strncmp_HEAD (s : List Char) : Bool :=
  decide (s.take 4 = ['H', 'E', 'A', 'D'])

/-- What `parse_revnum` leaves behind: its return value and the values of
`*start` and `*end`. -/
structure parse_revnum_t where
  ret : Nat
  start : Int
  end_ : Int
  deriving DecidableEq, Repr

/-- Function `parse_revnum` (main.c 83-132); `start` and `end_` are the values
of `*start` and `*end` at the call. -/
def parse_revnum (str : String) (start end_ : Int) : parse_revnum_t :=
  match strchr str.data ':' with
  | none =>
    if strncmp_HEAD str.data = true then { ret := 0, start := -1, end_ := -1 }
    else
      let r := strtol str.data
      if str.data.drop r.end_ptr ≠ [] then { ret := 1, start := r.value, end_ := end_ }
      else if r.erange = true then { ret := 1, start := r.value, end_ := r.value }
      else { ret := 0, start := r.value, end_ := r.value }
  | some colon =>
    let split := str.data.drop (colon + 1)
    if colon = 0 ∨ split = [] then { ret := 1, start := start, end_ := end_ }
    else
      let first : strtol_t :=
        if strncmp_HEAD str.data = true then { value := -1, end_ptr := colon, erange := false }
        else strtol str.data
      if first.erange = true ∨ first.end_ptr ≠ colon then
        { ret := 1, start := first.value, end_ := end_ }
      else
        let second : strtol_t :=
          if strncmp_HEAD split = true then
            { value := -1, end_ptr := split.length, erange := false }
          else strtol split
        if split.drop second.end_ptr ≠ [] then
          { ret := 1, start := first.value, end_ := second.value }
        else if first.value > second.value ∧ second.value ≠ -1 then
          { ret := 1, start := first.value, end_ := second.value }
        else if second.erange = true then
          { ret := 1, start := first.value, end_ := second.value }
        else { ret := 0, start := first.value, end_ := second.value }

/-- Function `dump_options_create` (dump.c 194-207). -/
def dump_options_create : dump_options_t :=
  { temp_dir := none, prefix_ := none, verbosity := 0, flags := 0, start := 0, end_ := -1 }

/-- The value `EXIT_FAILURE`. -/
def EXIT_FAILURE : Nat := 1

/-- Lines 186-192 of `main()`: the argument of `-r` or `--revision` is parsed
into the options; when `parse_revnum` fails, the message is printed and `main`
returns `EXIT_FAILURE` (`Except.error`), before the session is opened and
`dump()` is called. -/
def main_revision_option (arg : String) (opts : dump_options_t) :
    Except (Nat × String) dump_options_t :=
  let r := parse_revnum arg opts.start opts.end_
  if r.ret ≠ 0 then
    Except.error (EXIT_FAILURE, "ERROR: invalid revision range '" ++ arg ++ "'.\n")
  else Except.ok { opts with start := r.start, end_ := r.end_ }

/-! ## Notions used to state the theorems on `dump()` -/

/-- The numbers of the `Revision-number` lines of a trace, in order. -/
def revision_numbers : List Event → List Int
  | [] => []
  | Event.dump_revision_header n _ :: rest => n :: revision_numbers rest
  | _ :: rest => revision_numbers rest

/-- The target revisions of the tree diffs of a trace, in order. -/
def diff_targets : List Event → List Int
  | [] => []
  | Event.dump_do_diff _ dest _ :: rest => dest :: diff_targets rest
  | _ :: rest => diff_targets rest

/-- Every tree diff of the run succeeds: `dump_do_diff` returns 0 whatever the
iteration and the two revisions. -/
def diffs_succeed (env : collab) : Prop :=
  ∀ (it : Nat) (src dest : Int), (dump_do_diff env it src dest).1 = false

/-- The consecutive integers `first, first + 1, ...`, `n` of them. -/
def consecutive (first : Int) (n : Nat) : List Int :=
  (List.range n).map (fun (i : Nat) => first + (i : Int))

/-- Every metadata fetch for a source revision `g` of the range returns
revision `g`: `log_fetch` asked for `g` answers with the log of revision `g`,
and the list that `log_fetch_all` has filled for the range, if it was called,
holds the logs of `start, start + 1, ..., end` in that order. -/
def metadata_exact (env : collab) (c : prepared) : Prop :=
  (∀ g : Int, c.opts.start ≤ g → g ≤ c.opts.end_ →
      ∀ it : Nat, ∃ log, env.log_fetch it g c.opts.end_ = some log ∧ log.revision = g)
    ∧ (c.logs_fetched = true →
        c.logs.map (fun log => log.revision)
          = consecutive c.opts.start ((c.opts.end_ - c.opts.start).toNat + 1))

/-- The texts of the revision headers of a trace, in order. -/
def revision_headers : List Event → List String
  | [] => []
  | Event.dump_revision_header _ text :: rest => text :: revision_headers rest
  | _ :: rest => revision_headers rest

/-- The log record that the loop body obtains in state `st` is `log`. -/
def obtains (env : collab) (c : prepared) (st : loop_state) (log : log_revision_t) : Prop :=
  if c.logs_fetched = true then logs_at st.logs (st.list_idx + 1) = some log
  else env.log_fetch st.it st.global_rev c.opts.end_ = some log

/-- A list of events without a revision header and without a tree diff. -/
def quiet (ev : List Event) : Prop :=
  revision_numbers ev = [] ∧ diff_targets ev = []

/-- The number of bytes of a text. -/
def byte_length (text : String) : Nat :=
  text.utf8ByteSize

/-- The sum of the encoded lengths of the given properties. -/
def props_sum (P : property_h) : List (String × Option String) → Nat
  | [] => 0
  | (key, value) :: rest => P.property_strlen key value + props_sum P rest

/-- The length that a revision header announces for its properties: the sum
of their encoded lengths plus the terminator length when that sum is positive,
and 0 otherwise. -/
def revision_props_length (P : property_h) (props : List (String × Option String)) : Nat :=
  if props_sum P props > 0 then props_sum P props + P.PROPS_END_LEN else 0

/-- The encoded properties, in order. -/
def props_dump (P : property_h) : List (String × Option String) → String
  | [] => ""
  | (key, value) :: rest => P.property_dump key value ++ props_dump P rest

/-- The property block of a revision: the encoded properties and the
terminator. -/
def revision_props_block (P : property_h) (props : List (String × Option String)) : String :=
  props_dump P props ++ P.PROPS_END

/-- The revision header of section 6 of the specification for revision number
`number`, announced length `p` and property block `block`. -/
def expected_revision_header (number : Int) (p : Nat) (block : String) : String :=
  "Revision-number: " ++ toString number ++ "\n"
    ++ "Prop-content-length: " ++ toString p ++ "\n"
    ++ "Content-length: " ++ toString p ++ "\n\n"
    ++ (if p > 0 then block ++ "\n" else "")

/-- The log, author and date properties of a `log_revision_t`, in the order in
which `dump_revision_header` writes them. -/
def log_revision_t.props (revision : log_revision_t) : List (String × Option String) :=
  [("svn:log", revision.message), ("svn:author", revision.author), ("svn:date", revision.date)]

/-- The log, author and date properties of a `logentry_t`, in the order in
which `dump_delta_revision` writes them. -/
def DumpDelta.logentry_t.props (entry : DumpDelta.logentry_t) : List (String × Option String) :=
  [(entry.msg.key, entry.msg.value), (entry.author.key, entry.author.value),
    (entry.date.key, entry.date.value)]

/-! ## Notions used to state the theorems on `dump_delta.c` -/

namespace DumpDelta

/-- The node header of section 6 of the specification, without body length
lines: the path line with the user prefix (when there is one) put in front of
the path, the kind line unless the action is a deletion, the action line, and
two blank lines. -/
def expected_node_header ( user_prefix : Option String) (path : String)
    (kind : nodekind_t) (action : nodeaction_t) : String :=
  "Node-path: "
    ++ (match user_prefix with
        | some text => text
        | none => "")
    ++ path ++ "\n"
    ++ (if action = nodeaction_t.NA_DELETE then ""
        else "Node-kind: "
          ++ (match kind with
              | nodekind_t.NK_FILE => "file"
              | nodekind_t.NK_DIRECTORY => "dir")
          ++ "\n")
    ++ "Node-action: "
    ++ (match action with
        | nodeaction_t.NA_CHANGE => "change"
        | nodeaction_t.NA_ADD => "add"
        | nodeaction_t.NA_DELETE => "delete"
        | nodeaction_t.NA_REPLACE => "replace")
    ++ "\n" ++ "\n\n"

/-- The node at position `d` of the list exists and is marked as dumped. -/
def dumped_in (nodes : List node_baton_t) (d : Nat) : Prop :=
  ∃ node, nodes[d]? = some node ∧ node.dumped = true

/-- The headers written agree with the nodes: no node has had its header
written twice, and a position that holds no node, or a node that is not marked
as dumped, has had none written. -/
def headers_sound (nodes : List node_baton_t) (headers : List Nat) : Prop :=
  (∀ d, headers.count d ≤ 1)
    ∧ (∀ d, nodes.length ≤ d → headers.count d = 0)
    ∧ (∀ d node, nodes[d]? = some node → node.dumped = false → headers.count d = 0)

/-- The callback is an `add_file` or an `add_directory` that names the node
at position `d` as parent. -/
def is_child_add (d : Nat) : callback → Bool
  | callback.add_file _ (pointer.node parent) => decide (parent = d)
  | callback.add_directory _ (pointer.node parent) => decide (parent = d)
  | _ => false

/-- The callbacks that set the properties `props` on the file node `file`, in
order. -/
def change_file_props (file : Nat) (props : List (String × Option String)) : List callback :=
  props.map (fun kv => callback.change_file_prop (pointer.node file) kv.1 kv.2)

end DumpDelta

/-! ## Example inputs, used to exercise the theorems -/

/-- Flag values for the examples. -/
def example_flags : dump_flags :=
  { DF_USE_DELTAS := 1, DF_KEEP_REVNUMS := 2, DF_INCREMENTAL := 4, DF_DUMP_UUID := 8 }

/-- A property codec for the examples: key and value on a line each. -/
def example_property_h : property_h :=
  { property_strlen := fun key value =>
      match value with
      | none => 0
      | some v => (key ++ "\n" ++ v ++ "\n").utf8ByteSize
    property_dump := fun key value =>
      match value with
      | none => ""
      | some v => key ++ "\n" ++ v ++ "\n"
    PROPS_END := "PROPS-END\n"
    PROPS_END_LEN := 10 }

/-- A property codec for which the log message has an encoded length of
`INT_MAX` bytes, and the author and the date none. -/
def example_long_property_h : property_h :=
  { property_strlen := fun key _ => if key = "svn:log" then 2147483647 else 0
    property_dump := fun _ _ => ""
    PROPS_END := "PROPS-END\n"
    PROPS_END_LEN := 10 }

/-- A repository for the examples in which every revision exists, every log is
that of the revision asked for, and the diff of revision `fail_at` fails in
`finish_report` (no diff fails when `fail_at` is `none`). -/
def example_collab (head : Int) (fail_at : Option Nat) : collab :=
  { svn_ra_stat := some (some head)
    svn_ra_check_path := fun _ => some svn_node_kind_t.svn_node_dir
    svn_ra_get_uuid := some "uuid"
    log_get_range := fun s e _ => some (s, e)
    session_check_reparent := fun session _ => some session
    log_fetch_all := fun s e _ =>
      some ((List.range (e - s + 1).toNat).map
        (fun (i : Nat) => { revision := s + (i : Int), author := none, date := none, message := none }))
    log_fetch := fun _ g _ =>
      some { revision := g, author := some "jonas", date := none, message := some "log" }
    svn_ra_do_diff2 := fun _ _ => false
    reporter_set_path := fun _ _ _ => false
    reporter_finish_report := fun it => decide (fail_at = some it) }

/-- A session on the repository root. -/
def example_session : session_t :=
  { url := "http://host/repo", encoded_url := "http://host/repo", prefix_ := "", file := none }

/-- Options for the revision range `start:end_` with the given flags. -/
def example_options (flags : Nat) (start end_ : Int) : dump_options_t :=
  { temp_dir := none, prefix_ := none, verbosity := 0, flags := flags,
    start := start, end_ := end_ }

/-- Options of `dump_delta.c` for the examples: the export root is a
directory and no user prefix is set. -/
def DumpDelta.example_delta_options : DumpDelta.dump_options_t :=
  { prefix_is_file := false, repo_eurl := "http://host/repo", user_prefix := none,
    keep_revnums := false, repo_dir := "/tmp/rsvndump" }

/-- Options of `dump_delta.c` for the examples: the export root is the single
file `a.txt` and the user prefix is `branch/`. -/
def DumpDelta.example_file_options : DumpDelta.dump_options_t :=
  { prefix_is_file := true, repo_eurl := "http://host/repo/a.txt",
    user_prefix := some "branch/", keep_revnums := true, repo_dir := "/tmp/rsvndump" }

/-- The root node that `open_root` creates. -/
def DumpDelta.example_root : DumpDelta.node_baton_t :=
  { baton := DumpDelta.pointer.baton, path := none, filename := none, props := [],
    action := none, kind := none, dumped := true }

/-- A node as `add_file`, `add_directory` and `open_file` create it. -/
def DumpDelta.example_node (path : String) (kind : DumpDelta.nodekind_t)
    (action : DumpDelta.nodeaction_t) (dumped : Bool) : DumpDelta.node_baton_t :=
  { baton := DumpDelta.pointer.baton, path := some path, filename := none, props := [],
    action := some action, kind := some kind, dumped := dumped }

/-- A log of revision 5 for the examples. -/
def example_log : log_revision_t :=
  { revision := 5, author := some "jonas", date := none, message := some "log" }

/-- The log entry of revision 5 for the examples, as `dump_delta.c` holds it. -/
def DumpDelta.example_entry : DumpDelta.logentry_t :=
  { revision := 5, author := { key := "svn:author", value := some "jonas" },
    date := { key := "svn:date", value := none },
    msg := { key := "svn:log", value := some "log" } }

/-! ## Notions used to state the theorems on `main.c` -/

/-- What one pass of the loop body does with the log `log` it has obtained in
state `st`: the events it can produce. -/
def iteration_event (P : property_h) (c : prepared) (st : loop_state) (log : log_revision_t)
    (e : Event) : Prop :=
  (c.logs_fetched = false ∧ e = Event.log_fetch st.global_rev c.opts.end_)
    ∨ e = Event.dump_revision_header st.local_rev
          (dump_revision_header P log st.local_rev c.opts)
    ∨ e = Event.delta_setup_editor st.local_rev
    ∨ e = Event.svn_ra_do_diff2 log.revision
    ∨ e = Event.reporter_set_path (dump_diff_base c st.global_rev)
          (decide (dump_diff_base c st.global_rev = log.revision))
    ∨ e = Event.reporter_finish_report
    ∨ (∃ failed, e = Event.dump_do_diff (dump_diff_base c st.global_rev) log.revision failed)
    ∨ e = Event.fprintf_stderr ("* Dumped revision " ++ toString log.revision ++ ".\n")

/-- The loop variables after a pass of the loop body that has obtained `log`
in state `st` and has not left the function. -/
def next_state (c : prepared) (st : loop_state) (log : log_revision_t) : loop_state :=
  { logs := if c.logs_fetched = false then st.logs ++ [log] else st.logs,
    global_rev := log.revision + 1,
    local_rev := st.local_rev + 1,
    list_idx := if c.logs_fetched = false then ((st.logs ++ [log]).length : Int) - 1
      else st.list_idx + 1,
    it := st.it + 1 }

/-- The base revision that an event shows to be passed to the tree diff. -/
def diff_base_of : Event → Option Int
  | Event.dump_do_diff src _ _ => some src
  | Event.reporter_set_path src _ => some src
  | _ => none

/-- The diff base as the specification words it: `globalRevision - 1` clamped
to 0, replaced, when a sub-path prefix is active and that base lies before the
configured start, by the configured end for a single-file export and by the
configured start otherwise. -/
def expected_diff_base (prefix_active single_file : Bool) (start end_ global_rev : Int) : Int :=
  if prefix_active = true ∧ max (global_rev - 1) 0 < start then
    (if single_file = true then end_ else start)
  else max (global_rev - 1) 0

/-- The event is a call of the range fetch `log_fetch_all`. -/
def is_log_fetch_all : Event → Bool
  | Event.log_fetch_all _ _ => true
  | _ => false

/-- The event is a call of the single-revision fetch `log_fetch`. -/
def is_log_fetch : Event → Bool
  | Event.log_fetch _ _ => true
  | _ => false

/-- The event writes to the dump stream: the stream header, the UUID line or
a revision header. -/
def is_stdout : Event → Bool
  | Event.printf _ => true
  | Event.dump_revision_header _ _ => true
  | _ => false

/-- The event is one that `dump()` can produce before its main loop. -/
def is_prepare_event : Event → Bool
  | Event.svn_ra_stat => true
  | Event.svn_ra_check_path _ => true
  | Event.svn_ra_get_uuid => true
  | Event.log_get_range _ _ => true
  | Event.session_check_reparent _ => true
  | Event.log_fetch_all _ _ => true
  | Event.printf _ => true
  | Event.fprintf_stderr _ => true
  | _ => false

/-- The event is one that `dump()` can produce before it decides how to fetch
the logs: range resolution and the reparent check. -/
def is_resolve_event : Event → Bool
  | Event.svn_ra_stat => true
  | Event.svn_ra_check_path _ => true
  | Event.log_get_range _ _ => true
  | Event.session_check_reparent _ => true
  | Event.fprintf_stderr _ => true
  | _ => false

/-- Every event of the list passes the test. -/
def all_pass (p : Event → Bool) (ev : List Event) : Prop :=
  ∀ e ∈ ev, p e = true

/-! ## Further example inputs -/

/-- A session on the sub-directory `trunk` of the repository. -/
def example_subpath_session : session_t :=
  { url := "http://host/repo/trunk", encoded_url := "http://host/repo/trunk",
    prefix_ := "trunk", file := none }

/-- A session on the single file `trunk/a.txt`. -/
def example_file_session : session_t :=
  { url := "http://host/repo/trunk/a.txt", encoded_url := "http://host/repo/trunk",
    prefix_ := "trunk/a.txt", file := some "a.txt" }

/-- The state at the main loop for the range 5:8 on the given session, the
logs being fetched one by one. -/
def example_prepared (session : session_t) : prepared :=
  { opts := example_options 0 5 8, session := session, logs := [], logs_fetched := false }

/-- The state at the main loop of the incremental dump of the range 5:8 whose
pre-fetched list holds the logs of the revisions 5, 6, 7 and 8. -/
def example_prefetched_range : prepared :=
  { opts := example_options 4 5 8, session := example_session,
    logs := [{ revision := 5, author := none, date := none, message := none },
             { revision := 6, author := none, date := none, message := none },
             { revision := 7, author := none, date := none, message := none },
             { revision := 8, author := none, date := none, message := none }],
    logs_fetched := true }

/-- The state at the main loop of an incremental dump of the range 5:5 whose
pre-fetched list holds the one log of revision 5. -/
def example_prefetched : prepared :=
  { opts := example_options 4 5 5, session := example_session,
    logs := [{ revision := 5, author := none, date := none, message := none }],
    logs_fetched := true }

/-! # Theorems -/

/-! ## Lemmas on the main loop -/

theorem revision_numbers_append (a b : List Event) :
    revision_numbers (a ++ b) = revision_numbers a ++ revision_numbers b := by
  induction a with
  | nil => rfl
  | cons e rest ih => cases e <;> simp [revision_numbers, ih]

theorem diff_targets_append (a b : List Event) :
    diff_targets (a ++ b) = diff_targets a ++ diff_targets b := by
  induction a with
  | nil => rfl
  | cons e rest ih => cases e <;> simp [diff_targets, ih]

theorem diff_targets_dump_do_diff (env : collab) (it : Nat) (src dest : Int) :
    diff_targets (dump_do_diff env it src dest).2 = [] := by
  unfold dump_do_diff
  split_ifs <;> rfl

theorem diff_targets_dumped_message (c : prepared) (rev : Int) :
    diff_targets (dumped_message c rev) = [] := by
  unfold dumped_message
  split_ifs <;> rfl

theorem revision_numbers_dump_do_diff (env : collab) (it : Nat) (src dest : Int) :
    revision_numbers (dump_do_diff env it src dest).2 = [] := by
  unfold dump_do_diff
  split_ifs <;> rfl

theorem revision_numbers_dumped_message (c : prepared) (rev : Int) :
    revision_numbers (dumped_message c rev) = [] := by
  unfold dumped_message
  split_ifs <;> rfl

theorem logs_at_append_last (logs : List log_revision_t) (log : log_revision_t) :
    logs_at (logs ++ [log]) (((logs ++ [log]).length : Int) - 1) = some log := by
  have h : (((logs ++ [log]).length : Int) - 1) = (logs.length : Int) := by
    simp
  rw [h]
  simp [logs_at]

theorem dump_iteration_ok (P : property_h) (env : collab) (c : prepared) (st : loop_state)
    (log : log_revision_t) (hget : obtains env c st log) (hdiff : diffs_succeed env) :
    ∃ ev st1, dump_iteration P env c st = (ev, Sum.inr st1)
      ∧ revision_numbers ev = [st.local_rev] ∧ diff_targets ev = [log.revision]
      ∧ st1.global_rev = log.revision + 1 ∧ st1.local_rev = st.local_rev + 1
      ∧ st1.it = st.it + 1
      ∧ (c.logs_fetched = true → st1.logs = st.logs ∧ st1.list_idx = st.list_idx + 1) := by
  have hd := hdiff st.it (dump_diff_base c st.global_rev) log.revision
  rcases hres : dump_do_diff env st.it (dump_diff_base c st.global_rev) log.revision with ⟨b, evd⟩
  have hnum := revision_numbers_dump_do_diff env st.it (dump_diff_base c st.global_rev) log.revision
  have htgt := diff_targets_dump_do_diff env st.it (dump_diff_base c st.global_rev) log.revision
  rw [hres] at hd hnum htgt
  simp only at hd hnum htgt
  subst hd
  by_cases hf : c.logs_fetched = true
  · simp only [obtains, hf, if_true] at hget
    have hob : dump_obtain_log env c st = Except.ok (st.logs, st.list_idx + 1, []) := by
      simp [dump_obtain_log, hf]
    simp only [dump_iteration, hob, hget, hres]
    refine ⟨_, _, rfl, ?_, ?_, ?_⟩
    · simp [revision_numbers_append, revision_numbers, hnum, revision_numbers_dumped_message]
    · simp [diff_targets_append, diff_targets, htgt, diff_targets_dumped_message]
    · simp
  · have hf2 : c.logs_fetched = false := by simpa using hf
    simp only [obtains, hf2, Bool.false_eq_true, if_false] at hget
    have hob : dump_obtain_log env c st
        = Except.ok (st.logs ++ [log], ((st.logs ++ [log]).length : Int) - 1,
            [Event.log_fetch st.global_rev c.opts.end_]) := by
      simp only [dump_obtain_log, hf2, if_true, hget]
    simp only [dump_iteration, hob, logs_at_append_last, hres]
    refine ⟨_, _, rfl, ?_, ?_, ?_⟩
    · simp [revision_numbers_append, revision_numbers, hnum, revision_numbers_dumped_message]
    · simp [diff_targets_append, diff_targets, htgt, diff_targets_dumped_message]
    · simp [hf2]

theorem consecutive_succ (first : Int) (n : Nat) :
    consecutive first (n + 1) = first :: consecutive (first + 1) n := by
  simp only [consecutive, List.range_succ_eq_map, List.map_cons, List.map_map]
  congr 1
  · simp
  · apply List.map_congr_left
    intro i _
    simp only [Function.comp, Nat.cast_succ]
    ring

theorem dump_loop_exact (P : property_h) (env : collab) (c : prepared)
    (hlazy : c.logs_fetched = false)
    (hmeta : metadata_exact env c) (hdiff : diffs_succeed env) :
    ∀ (n : Nat) (st : loop_state) (fuel : Nat),
      c.opts.start ≤ st.global_rev → st.global_rev + (n : Int) = c.opts.end_ →
      n < fuel →
      (dump_loop P env c fuel st).1 = Ret.returned 0
        ∧ revision_numbers (dump_loop P env c fuel st).2 = consecutive st.local_rev (n + 1)
        ∧ diff_targets (dump_loop P env c fuel st).2 = consecutive st.global_rev (n + 1) := by
  have hlog : ∀ st : loop_state, c.opts.start ≤ st.global_rev → st.global_rev ≤ c.opts.end_ →
      ∃ log, obtains env c st log ∧ log.revision = st.global_rev := by
    intro st hlo hg
    obtain ⟨log, h1, h2⟩ := hmeta.1 st.global_rev hlo hg st.it
    exact ⟨log, by simp only [obtains, hlazy, Bool.false_eq_true, if_false]; exact h1, h2⟩
  intro n
  induction n with
  | zero =>
    intro st fuel hlo hhi hfuel
    obtain ⟨f, rfl⟩ : ∃ f, fuel = f + 1 := ⟨fuel - 1, by omega⟩
    have hg : st.global_rev ≤ c.opts.end_ := by omega
    obtain ⟨log, hob, hrev⟩ := hlog st hlo hg
    obtain ⟨ev, st1, hit, hnum, htgt, hg1, _, _, _⟩ := dump_iteration_ok P env c st log hob hdiff
    have hexit : ¬ st1.global_rev ≤ c.opts.end_ := by rw [hg1, hrev]; omega
    simp only [dump_loop, hit, hexit, if_false]
    refine ⟨trivial, ?_, ?_⟩
    · simp [hnum, consecutive, List.range_succ]
    · simp [htgt, hrev, consecutive, List.range_succ]
  | succ n ih =>
    intro st fuel hlo hhi hfuel
    obtain ⟨f, rfl⟩ : ∃ f, fuel = f + 1 := ⟨fuel - 1, by omega⟩
    have hg : st.global_rev ≤ c.opts.end_ := by omega
    obtain ⟨log, hob, hrev⟩ := hlog st hlo hg
    obtain ⟨ev, st1, hit, hnum, htgt, hg1, hl1, _, _⟩ :=
      dump_iteration_ok P env c st log hob hdiff
    have hcont : st1.global_rev ≤ c.opts.end_ := by
      rw [hg1, hrev]; push_cast at hhi; omega
    have hrec := ih st1 f (by rw [hg1, hrev]; omega)
      (by rw [hg1, hrev]; push_cast at hhi; omega)
      (by omega)
    obtain ⟨hret, hrn, hdt⟩ := hrec
    simp only [dump_loop, hit, hcont, if_true]
    refine ⟨hret, ?_, ?_⟩
    · rw [revision_numbers_append, hnum, hrn, hl1, consecutive_succ st.local_rev (n + 1)]
      rfl
    · rw [diff_targets_append, htgt, hdt, hg1, hrev, consecutive_succ st.global_rev (n + 1)]
      rfl

theorem quiet_append (a b : List Event) (ha : quiet a) (hb : quiet b) : quiet (a ++ b) := by
  unfold quiet at *
  rw [revision_numbers_append, diff_targets_append, ha.1, ha.2, hb.1, hb.2]
  exact ⟨rfl, rfl⟩

theorem dump_determine_head_quiet (env : collab) (session : session_t) :
    quiet (dump_determine_head env session).2 := by
  unfold dump_determine_head
  split <;> exact ⟨rfl, rfl⟩

theorem dump_resolve_range_quiet (env : collab) (session : session_t)
    (opts o : dump_options_t) (ev : List Event)
    (h : dump_resolve_range env session opts = Except.ok (o, ev)) : quiet ev := by
  unfold dump_resolve_range at h
  have hq := dump_determine_head_quiet env session
  split_ifs at h
  · rcases hd : dump_determine_head env session with ⟨r, ev0⟩
    rw [hd] at h hq
    cases r with
    | none => simp at h
    | some head =>
      simp only at h
      split_ifs at h
      · split at h
        · simp at h
        · simp only [Except.ok.injEq, Prod.mk.injEq] at h
          rw [← h.2]
          exact quiet_append _ _ hq ⟨rfl, rfl⟩
      · simp only [Except.ok.injEq, Prod.mk.injEq] at h
        rw [← h.2]
        exact quiet_append _ _ hq ⟨rfl, rfl⟩
  · simp only [Except.ok.injEq, Prod.mk.injEq] at h
    rw [← h.2]
    exact ⟨rfl, rfl⟩

theorem dump_prefetch_quiet (DF : dump_flags) (env : collab) (opts : dump_options_t)
    (logs : List log_revision_t) (fetched : Bool) (ev : List Event)
    (h : dump_prefetch DF env opts = Except.ok (logs, fetched, ev)) : quiet ev := by
  unfold dump_prefetch at h
  split_ifs at h
  · split at h
    · simp at h
    · simp only [Except.ok.injEq, Prod.mk.injEq] at h
      rw [← h.2.2]
      exact ⟨rfl, rfl⟩
  · simp only [Except.ok.injEq, Prod.mk.injEq] at h
    rw [← h.2.2]
    exact ⟨rfl, rfl⟩

theorem dump_fetch_logs_quiet (DF : dump_flags) (env : collab) (session : session_t)
    (opts : dump_options_t) (c : prepared) (ev : List Event)
    (h : dump_fetch_logs DF env session opts = Except.ok (c, ev)) : quiet ev := by
  unfold dump_fetch_logs at h
  split at h
  · simp at h
  · rename_i logs fetched ev1 hpre
    split at h
    · simp at h
    · simp only [Except.ok.injEq, Prod.mk.injEq] at h
      rw [← h.2]
      exact dump_prefetch_quiet DF env opts logs fetched ev1 hpre

theorem dump_write_header_quiet (DF : dump_flags) (env : collab) (opts : dump_options_t) :
    quiet (dump_write_header DF env opts).2 := by
  unfold dump_write_header
  by_cases hu : opts.flags &&& DF.DF_DUMP_UUID ≠ 0
  · rw [if_pos hu]
    cases dump_fetch_uuid env <;> exact ⟨rfl, rfl⟩
  · rw [if_neg hu]
    exact ⟨rfl, rfl⟩

theorem dump_prepare_quiet (DF : dump_flags) (env : collab) (session : session_t)
    (opts : dump_options_t) (c : prepared) (ev : List Event)
    (h : dump_prepare DF env session opts = Except.ok (c, ev)) : quiet ev := by
  unfold dump_prepare at h
  split at h
  · simp at h
  · rename_i o ev1 hres
    split at h
    · simp at h
    · rename_i session1 hrep
      split at h
      · simp at h
      · rename_i c1 ev3 hfetch
        have hw := dump_write_header_quiet DF env c1.opts
        split at h
        · simp at h
        · rename_i u ev4 hhead
          rw [hhead] at hw
          simp only [Except.ok.injEq, Prod.mk.injEq] at h
          rw [← h.2]
          exact quiet_append _ _
            (quiet_append _ _
              (quiet_append _ _ (dump_resolve_range_quiet env session opts o ev1 hres)
                ⟨rfl, rfl⟩)
              (dump_fetch_logs_quiet DF env session1 o c1 ev3 hfetch))
            hw

/-! ## Theorems on `dump()` -/

/-- In a run of `dump()` without keep-original-numbering that fetches the logs
one by one (the dump is not incremental, or the start revision is 0), whose
preparation succeeds with the effective range `[start, end]`, in which every
tree diff succeeds and every metadata fetch for source revision `g` returns
revision `g`, `dump()` returns 0, the `Revision-number` lines are the
consecutive integers beginning at 0 when the effective start is 0 and at 1
otherwise, and there is one of them per source revision of `[start, end]`: the
tree diffs target `start, start + 1, ..., end` in that order. -/
theorem dump_revision_numbers_consecutive (DF : dump_flags) (P : property_h) (env : collab)
    (session : session_t) (opts : dump_options_t) (c : prepared) (ev : List Event)
    (_hkeep : opts.flags &&& DF.DF_KEEP_REVNUMS = 0)
    (hprep : dump_prepare DF env session opts = Except.ok (c, ev))
    (hlazy : c.logs_fetched = false)
    (hrange : c.opts.start ≤ c.opts.end_)
    (hmeta : metadata_exact env c) (hdiff : diffs_succeed env)
    (fuel : Nat) (hfuel : (c.opts.end_ - c.opts.start).toNat < fuel) :
    (dump DF P env session opts fuel).1 = Ret.returned 0
      ∧ revision_numbers (dump DF P env session opts fuel).2
          = consecutive (if c.opts.start = 0 then 0 else 1)
              ((c.opts.end_ - c.opts.start).toNat + 1)
      ∧ diff_targets (dump DF P env session opts fuel).2
          = consecutive c.opts.start ((c.opts.end_ - c.opts.start).toNat + 1) := by
  have hq := dump_prepare_quiet DF env session opts c ev hprep
  have hloop := dump_loop_exact P env c hlazy hmeta hdiff (c.opts.end_ - c.opts.start).toNat
    (dump_loop_init c) fuel (le_refl _)
    (by simp only [dump_loop_init]; omega)
    hfuel
  simp only [dump, hprep]
  refine ⟨hloop.1, ?_, ?_⟩
  · rw [revision_numbers_append, hq.1, hloop.2.1]
    rfl
  · rw [diff_targets_append, hq.2, hloop.2.2]
    rfl

/-- The range 5:8 with the logs fetched one by one: the revision numbers
written are 1, 2, 3, 4, for the source revisions 5, 6, 7, 8. -/
theorem dump_revision_numbers_consecutive_witness :
    (dump example_flags example_property_h (example_collab 8 none) example_session
        (example_options 0 5 8) 4).1 = Ret.returned 0
      ∧ revision_numbers (dump example_flags example_property_h (example_collab 8 none)
          example_session (example_options 0 5 8) 4).2 = [1, 2, 3, 4]
      ∧ diff_targets (dump example_flags example_property_h (example_collab 8 none)
          example_session (example_options 0 5 8) 4).2 = [5, 6, 7, 8] :=
  dump_revision_numbers_consecutive example_flags example_property_h (example_collab 8 none)
    example_session (example_options 0 5 8)
    (prepared.mk (example_options 0 5 8) example_session [] false)
    [Event.svn_ra_check_path 5, Event.svn_ra_check_path 8, Event.session_check_reparent 5,
      Event.printf "SVN-fs-dump-format-version: ", Event.printf "2\n\n"]
    (by decide) (by rfl) rfl (by decide)
    ⟨fun g _ _ it => ⟨_, rfl, rfl⟩, fun h => Bool.noConfusion h⟩
    (by
      intro it src dest
      simp [dump_do_diff, example_collab])
    4 (by decide)

theorem consecutive_length (first : Int) (n : Nat) : (consecutive first n).length = n := by
  simp [consecutive]

theorem logs_at_of_consecutive (logs : List log_revision_t) (first : Int) (n j : Nat)
    (hmap : logs.map (fun log => log.revision) = consecutive first n) (hj : j < n) :
    ∃ log, logs_at logs (j : Int) = some log ∧ log.revision = first + (j : Int) := by
  have hlen : logs.length = n := by
    have h := congrArg List.length hmap
    rw [List.length_map, consecutive_length] at h
    exact h
  have hjl : j < logs.length := by omega
  refine ⟨logs.get ⟨j, hjl⟩, ?_, ?_⟩
  · have h0 : (0 : Int) ≤ (j : Int) := by omega
    simp only [logs_at, h0, if_true, Int.toNat_ofNat]
    exact List.getElem?_eq_getElem hjl
  · have h1 : (logs.map (fun log => log.revision))[j]? = some (logs.get ⟨j, hjl⟩).revision := by
      simp [List.getElem?_map, List.getElem?_eq_getElem hjl]
    have h2 : (consecutive first n)[j]? = some (first + (j : Int)) := by
      simp [consecutive, List.getElem?_map, List.getElem?_range hj]
    rw [hmap, h2] at h1
    exact (Option.some.inj h1).symm

theorem dump_loop_prefetched (P : property_h) (env : collab) (c : prepared)
    (hf : c.logs_fetched = true) (hmeta : metadata_exact env c) (hdiff : diffs_succeed env) :
    ∀ (n i : Nat) (st : loop_state) (fuel : Nat),
      st.logs = c.logs → st.list_idx = (i : Int) →
      i + 1 + n = (c.opts.end_ - c.opts.start).toNat → c.opts.start ≤ c.opts.end_ →
      n < fuel →
      (dump_loop P env c fuel st).1 = Ret.returned 0
        ∧ revision_numbers (dump_loop P env c fuel st).2 = consecutive st.local_rev (n + 1)
        ∧ diff_targets (dump_loop P env c fuel st).2
            = consecutive (c.opts.start + (i : Int) + 1) (n + 1) := by
  have hlog : ∀ (i : Nat) (st : loop_state), st.logs = c.logs → st.list_idx = (i : Int) →
      i + 1 < (c.opts.end_ - c.opts.start).toNat + 1 →
      ∃ log, obtains env c st log ∧ log.revision = c.opts.start + (i : Int) + 1 := by
    intro i st hl hi hlt
    obtain ⟨log, h1, h2⟩ := logs_at_of_consecutive c.logs c.opts.start _ (i + 1) (hmeta.2 hf) hlt
    refine ⟨log, ?_, by rw [h2]; push_cast; ring⟩
    simp only [obtains, hf, if_true, hl, hi]
    exact h1
  intro n
  induction n with
  | zero =>
    intro i st fuel hl hi hn hrange hfuel
    obtain ⟨f, rfl⟩ : ∃ f, fuel = f + 1 := ⟨fuel - 1, by omega⟩
    obtain ⟨log, hob, hrev⟩ := hlog i st hl hi (by omega)
    obtain ⟨ev, st1, hit, hnum, htgt, hg1, _, _, _⟩ := dump_iteration_ok P env c st log hob hdiff
    have hexit : ¬ st1.global_rev ≤ c.opts.end_ := by rw [hg1, hrev]; omega
    simp only [dump_loop, hit, hexit, if_false]
    refine ⟨trivial, ?_, ?_⟩
    · simp [hnum, consecutive, List.range_succ]
    · simp [htgt, hrev, consecutive, List.range_succ]
  | succ n ih =>
    intro i st fuel hl hi hn hrange hfuel
    obtain ⟨f, rfl⟩ : ∃ f, fuel = f + 1 := ⟨fuel - 1, by omega⟩
    obtain ⟨log, hob, hrev⟩ := hlog i st hl hi (by omega)
    obtain ⟨ev, st1, hit, hnum, htgt, hg1, hl1, _, hpre1⟩ :=
      dump_iteration_ok P env c st log hob hdiff
    have hcont : st1.global_rev ≤ c.opts.end_ := by rw [hg1, hrev]; omega
    obtain ⟨hl2, hi2⟩ := hpre1 hf
    have hrec := ih (i + 1) st1 f (by rw [hl2, hl]) (by rw [hi2, hi]; push_cast; ring)
      (by omega) hrange (by omega)
    obtain ⟨hret, hrn, hdt⟩ := hrec
    simp only [dump_loop, hit, hcont, if_true]
    refine ⟨hret, ?_, ?_⟩
    · rw [revision_numbers_append, hnum, hrn, hl1, consecutive_succ st.local_rev (n + 1)]
      rfl
    · rw [diff_targets_append, htgt, hdt, hrev,
        consecutive_succ (c.opts.start + (i : Int) + 1) (n + 1)]
      have hcast : c.opts.start + ((i + 1 : Nat) : Int) + 1 = c.opts.start + (i : Int) + 1 + 1 := by
        push_cast
        ring
      rw [hcast]
      rfl

/-- C1: in a run of `dump()` that has fetched the logs of the range up front
(the dump is incremental and the start revision is not 0), whose preparation
succeeds with the range `[start, end]`, `start < end`, in which every tree diff
succeeds and every metadata fetch for source revision `g` returns revision `g`
(the list holds the logs of `start, ..., end`), `dump()` returns 0 after
writing `end - start` revision headers, numbered consecutively, where
`end - start + 1` are due, one per source revision: the tree diffs target
`start + 1, ..., end`, and the log of revision `start`, `logs.elements[0]`, is
never read. -/
theorem dump_prefetched_revision_numbers (DF : dump_flags) (P : property_h) (env : collab)
    (session : session_t) (opts : dump_options_t) (c : prepared) (ev : List Event)
    (hprep : dump_prepare DF env session opts = Except.ok (c, ev))
    (hf : c.logs_fetched = true)
    (hrange : c.opts.start < c.opts.end_)
    (hmeta : metadata_exact env c) (hdiff : diffs_succeed env)
    (fuel : Nat) (hfuel : (c.opts.end_ - c.opts.start).toNat ≤ fuel) :
    (dump DF P env session opts fuel).1 = Ret.returned 0
      ∧ revision_numbers (dump DF P env session opts fuel).2
          = consecutive (if c.opts.start = 0 then 0 else 1) (c.opts.end_ - c.opts.start).toNat
      ∧ diff_targets (dump DF P env session opts fuel).2
          = consecutive (c.opts.start + 1) (c.opts.end_ - c.opts.start).toNat := by
  have hq := dump_prepare_quiet DF env session opts c ev hprep
  obtain ⟨n, hn⟩ : ∃ n, (c.opts.end_ - c.opts.start).toNat = n + 1 :=
    ⟨(c.opts.end_ - c.opts.start).toNat - 1, by omega⟩
  have hloop := dump_loop_prefetched P env c hf hmeta hdiff n 0 (dump_loop_init c) fuel rfl rfl
    (by omega) (le_of_lt hrange) (by omega)
  simp only [dump, hprep]
  rw [hn]
  refine ⟨hloop.1, ?_, ?_⟩
  · rw [revision_numbers_append, hq.1, hloop.2.1]
    rfl
  · rw [diff_targets_append, hq.2, hloop.2.2]
    simp

theorem example_collab_diffs_succeed (head : Int) : diffs_succeed (example_collab head none) := by
  intro it src dest
  simp [dump_do_diff, example_collab]

/-- C1 on the incremental dump of the range 5:8 without keep-original-numbering,
in which every tree diff succeeds, `log_fetch_all` fills the list with the logs
of the revisions 5, 6, 7, 8 and `log_fetch` would answer with the revision
asked for: `dump()` returns 0 and writes the three headers `Revision-number: 1`,
`2`, `3` for the source revisions 6, 7, 8, the first diff running from revision
4 to revision 6. No header is written for source revision 5, where four
headers, 1 to 4, are due for the revisions 5 to 8. -/
theorem dump_prefetched_revision_numbers_witness :
    (example_options 4 5 8).flags &&& example_flags.DF_KEEP_REVNUMS = 0
      ∧ dump_prepare example_flags (example_collab 8 none) example_session
          (example_options 4 5 8)
        = Except.ok (example_prefetched_range,
            [Event.svn_ra_check_path 5, Event.svn_ra_check_path 8,
              Event.session_check_reparent 5, Event.log_fetch_all 5 8,
              Event.printf "SVN-fs-dump-format-version: ", Event.printf "2\n\n"])
      ∧ diffs_succeed (example_collab 8 none)
      ∧ metadata_exact (example_collab 8 none) example_prefetched_range
      ∧ ((dump example_flags example_property_h (example_collab 8 none) example_session
            (example_options 4 5 8) 4).1 = Ret.returned 0
        ∧ revision_numbers (dump example_flags example_property_h (example_collab 8 none)
            example_session (example_options 4 5 8) 4).2 = [1, 2, 3]
        ∧ diff_targets (dump example_flags example_property_h (example_collab 8 none)
            example_session (example_options 4 5 8) 4).2 = [6, 7, 8])
      ∧ revision_headers (dump example_flags example_property_h (example_collab 8 none)
          example_session (example_options 4 5 8) 4).2
        = ["Revision-number: 1\nProp-content-length: 0\nContent-length: 0\n\n",
            "Revision-number: 2\nProp-content-length: 0\nContent-length: 0\n\n",
            "Revision-number: 3\nProp-content-length: 0\nContent-length: 0\n\n"]
      ∧ Event.dump_do_diff 4 6 false
          ∈ (dump example_flags example_property_h (example_collab 8 none) example_session
              (example_options 4 5 8) 4).2 :=
  ⟨by decide, rfl, example_collab_diffs_succeed 8,
    ⟨fun g _ _ it => ⟨_, rfl, rfl⟩, fun _ => rfl⟩,
    dump_prefetched_revision_numbers example_flags example_property_h (example_collab 8 none)
      example_session (example_options 4 5 8) example_prefetched_range
      [Event.svn_ra_check_path 5, Event.svn_ra_check_path 8,
        Event.session_check_reparent 5, Event.log_fetch_all 5 8,
        Event.printf "SVN-fs-dump-format-version: ", Event.printf "2\n\n"]
      rfl rfl (by decide) ⟨fun g _ _ it => ⟨_, rfl, rfl⟩, fun _ => rfl⟩
      (example_collab_diffs_succeed 8) 4 (by decide),
    rfl, by decide⟩

/-- C2: with the `DF_KEEP_REVNUMS` bit set, `start = end = 5`, and the log
fetched for revision 5 being that of revision 5, `dump()` writes the header
`Revision-number: 1`, the local counter, for source revision 5. -/
theorem dump_keep_revnums_writes_local_number :
    (example_options 2 5 5).flags &&& example_flags.DF_KEEP_REVNUMS ≠ 0
      ∧ dump example_flags example_property_h (example_collab 5 none) example_session
          (example_options 2 5 5) 1
        = (Ret.returned 0,
            [Event.svn_ra_check_path 5, Event.svn_ra_check_path 5,
             Event.session_check_reparent 5,
             Event.printf "SVN-fs-dump-format-version: ", Event.printf "2\n\n",
             Event.log_fetch 5 5,
             Event.dump_revision_header 1
               ("Revision-number: 1\nProp-content-length: 39\nContent-length: 39\n\n"
                 ++ "svn:log\nlog\nsvn:author\njonas\nPROPS-END\n\n"),
             Event.delta_setup_editor 1,
             Event.svn_ra_do_diff2 5, Event.reporter_set_path 4 false,
             Event.reporter_finish_report,
             Event.dump_do_diff 4 5 false,
             Event.fprintf_stderr "* Dumped revision 5.\n"]) := by
  constructor
  · decide
  · rfl

/-! ### A failed tree diff ends the run -/

theorem byte_length_append (a b : String) :
    byte_length (a ++ b) = byte_length a + byte_length b := by
  show String.utf8Len (a.data ++ b.data) = String.utf8Len a.data + String.utf8Len b.data
  exact String.utf8Len_append a.data b.data

theorem byte_length_props_dump (P : property_h)
    (hlen : ∀ key value, P.property_strlen key value = byte_length (P.property_dump key value))
    (props : List (String × Option String)) :
    byte_length (props_dump P props) = props_sum P props := by
  induction props with
  | nil => rfl
  | cons kv rest ih =>
    obtain ⟨key, value⟩ := kv
    simp only [props_dump, props_sum, byte_length_append, ih, hlen]

theorem to_int_of_range (x : Int) (h0 : 0 ≤ x) (h1 : x ≤ INT_MAX) : to_int x = x := by
  unfold to_int
  unfold INT_MAX at h1
  omega

theorem toString_natCast (n : Nat) : toString ((n : Nat) : Int) = toString n :=
  rfl

theorem props_length_int (a b c e : Nat)
    (h : (((if a + b + c > 0 then a + b + c + e else 0 : Nat) : Nat) : Int) ≤ INT_MAX) :
    (if to_int (to_int (to_int (0 + (a : Int)) + (b : Int)) + (c : Int)) > 0 then
        to_int (to_int (to_int (to_int (0 + (a : Int)) + (b : Int)) + (c : Int)) + (e : Int))
      else to_int (to_int (to_int (0 + (a : Int)) + (b : Int)) + (c : Int)))
      = (((if a + b + c > 0 then a + b + c + e else 0 : Nat) : Nat) : Int) := by
  by_cases hs : a + b + c > 0
  · rw [if_pos hs] at h ⊢
    have hmax : ((a + b + c + e : Nat) : Int) ≤ 2147483647 := h
    have h1 : to_int (0 + (a : Int)) = (a : Int) := by
      rw [to_int_of_range _ (by omega) (by unfold INT_MAX; omega)]
      omega
    have h2 : to_int ((a : Int) + (b : Int)) = ((a + b : Nat) : Int) := by
      rw [to_int_of_range _ (by omega) (by unfold INT_MAX; omega)]
      omega
    have h3 : to_int (((a + b : Nat) : Int) + (c : Int)) = ((a + b + c : Nat) : Int) := by
      rw [to_int_of_range _ (by omega) (by unfold INT_MAX; omega)]
      omega
    have h4 : to_int (((a + b + c : Nat) : Int) + (e : Int)) = ((a + b + c + e : Nat) : Int) := by
      rw [to_int_of_range _ (by omega) (by unfold INT_MAX; omega)]
      omega
    rw [h1, h2, h3, h4]
    have hpos : ((a + b + c : Nat) : Int) > 0 := by omega
    rw [if_pos hpos]
  · have ha : a = 0 := by omega
    have hb : b = 0 := by omega
    have hc : c = 0 := by omega
    subst ha hb hc
    have hz : to_int 0 = 0 := by
      unfold to_int
      omega
    simp [hz]

theorem revision_props_block_bytes (P : property_h)
    (hlen : ∀ key value, P.property_strlen key value = byte_length (P.property_dump key value))
    (hend : P.PROPS_END_LEN = byte_length P.PROPS_END)
    (props : List (String × Option String)) (hp : revision_props_length P props > 0) :
    byte_length (revision_props_block P props) = revision_props_length P props := by
  unfold revision_props_length at hp ⊢
  by_cases hs : props_sum P props > 0
  · rw [if_pos hs]
    unfold revision_props_block
    rw [byte_length_append, byte_length_props_dump P hlen, hend]
  · rw [if_neg hs] at hp
    exact absurd hp (lt_irrefl 0)

/-- C10: for a record whose announced length `p` fits in the `int` that holds
it, `dump_revision_header` (dump.c) and the header part of
`dump_delta_revision` (dump_delta.c) write the revision number, then
`Prop-content-length` and `Content-length` lines with the same value `p`, the
sum of the encoded lengths of the log, author and date properties plus
`PROPS_END_LEN` when that sum is positive and 0 otherwise, then the property
block, its terminator and a newline exactly when `p > 0`; and when the encoded
length of each property is the number of bytes that `property_dump` writes
for it (and `PROPS_END_LEN` that of `PROPS_END`), the block has `p` bytes. -/
theorem revision_header_lengths (P : property_h) (revision : log_revision_t)
    (entry : DumpDelta.logentry_t) (local_revnum : Int) (opts : dump_options_t)
    (dopts : DumpDelta.dump_options_t)
    (hrev : ((revision_props_length P revision.props : Nat) : Int) ≤ INT_MAX)
    (hentry : ((revision_props_length P entry.props : Nat) : Int) ≤ INT_MAX) :
    dump_revision_header P revision local_revnum opts
        = expected_revision_header local_revnum (revision_props_length P revision.props)
            (revision_props_block P revision.props)
      ∧ ((∀ key value,
            P.property_strlen key value = byte_length (P.property_dump key value)) →
          P.PROPS_END_LEN = byte_length P.PROPS_END →
          revision_props_length P revision.props > 0 →
          byte_length (revision_props_block P revision.props)
            = revision_props_length P revision.props)
      ∧ DumpDelta.dump_delta_revision_header P dopts entry local_revnum
        = expected_revision_header (if dopts.keep_revnums = true then entry.revision
              else local_revnum)
            (revision_props_length P entry.props) (revision_props_block P entry.props)
      ∧ ((∀ key value,
            P.property_strlen key value = byte_length (P.property_dump key value)) →
          P.PROPS_END_LEN = byte_length P.PROPS_END →
          revision_props_length P entry.props > 0 →
          byte_length (revision_props_block P entry.props)
            = revision_props_length P entry.props) := by
  refine ⟨?_, fun hlen hend => revision_props_block_bytes P hlen hend _, ?_,
    fun hlen hend => revision_props_block_bytes P hlen hend _⟩
  · have hsum : props_sum P revision.props
        = P.property_strlen "svn:log" revision.message
            + P.property_strlen "svn:author" revision.author
            + P.property_strlen "svn:date" revision.date := by
      simp only [log_revision_t.props, props_sum]
      omega
    unfold revision_props_length at hrev
    rw [hsum] at hrev
    have hint := props_length_int _ _ _ _ hrev
    unfold dump_revision_header expected_revision_header revision_props_length
      revision_props_block
    simp only [hsum, hint, toString_natCast, Nat.cast_pos]
    by_cases hs : P.property_strlen "svn:log" revision.message
        + P.property_strlen "svn:author" revision.author
        + P.property_strlen "svn:date" revision.date > 0
    · have hp : P.property_strlen "svn:log" revision.message
          + P.property_strlen "svn:author" revision.author
          + P.property_strlen "svn:date" revision.date + P.PROPS_END_LEN > 0 := by omega
      simp only [hs, hp, if_true, log_revision_t.props, props_dump]
      apply String.ext
      simp [String.data_append, SVN_REPOS_DUMPFILE_REVISION_NUMBER,
        SVN_REPOS_DUMPFILE_PROP_CONTENT_LENGTH, SVN_REPOS_DUMPFILE_CONTENT_LENGTH]
    · simp only [hs, if_false, lt_irrefl]
      apply String.ext
      simp [String.data_append, SVN_REPOS_DUMPFILE_REVISION_NUMBER,
        SVN_REPOS_DUMPFILE_PROP_CONTENT_LENGTH, SVN_REPOS_DUMPFILE_CONTENT_LENGTH]
  · have hsum : props_sum P entry.props
        = P.property_strlen entry.author.key entry.author.value
            + P.property_strlen entry.date.key entry.date.value
            + P.property_strlen entry.msg.key entry.msg.value := by
      simp only [DumpDelta.logentry_t.props, props_sum]
      omega
    unfold revision_props_length at hentry
    rw [hsum] at hentry
    have hint := props_length_int _ _ _ _ hentry
    unfold DumpDelta.dump_delta_revision_header expected_revision_header revision_props_length
      revision_props_block
    simp only [hsum, hint, toString_natCast, Nat.cast_pos]
    by_cases hs : P.property_strlen entry.author.key entry.author.value
        + P.property_strlen entry.date.key entry.date.value
        + P.property_strlen entry.msg.key entry.msg.value > 0
    · have hp : P.property_strlen entry.author.key entry.author.value
          + P.property_strlen entry.date.key entry.date.value
          + P.property_strlen entry.msg.key entry.msg.value + P.PROPS_END_LEN > 0 := by omega
      simp only [hs, hp, if_true, DumpDelta.logentry_t.props, props_dump]
      apply String.ext
      by_cases hk : dopts.keep_revnums = true <;>
        simp [hk, String.data_append, SVN_REPOS_DUMPFILE_REVISION_NUMBER,
          SVN_REPOS_DUMPFILE_PROP_CONTENT_LENGTH, SVN_REPOS_DUMPFILE_CONTENT_LENGTH]
    · simp only [hs, if_false, lt_irrefl]
      apply String.ext
      by_cases hk : dopts.keep_revnums = true <;>
        simp [hk, String.data_append, SVN_REPOS_DUMPFILE_REVISION_NUMBER,
          SVN_REPOS_DUMPFILE_PROP_CONTENT_LENGTH, SVN_REPOS_DUMPFILE_CONTENT_LENGTH]

/-- C10 on the log of revision 5 written by `jonas` with the message `log` and
no date: both writers announce 39 bytes and write a block of 39 bytes. -/
theorem revision_header_lengths_witness :
    dump_revision_header example_property_h example_log 1 (example_options 0 5 8)
        = "Revision-number: 1\nProp-content-length: 39\nContent-length: 39\n\n"
            ++ "svn:log\nlog\nsvn:author\njonas\nPROPS-END\n" ++ "\n"
      ∧ byte_length "svn:log\nlog\nsvn:author\njonas\nPROPS-END\n" = 39
      ∧ DumpDelta.dump_delta_revision_header example_property_h
          DumpDelta.example_file_options DumpDelta.example_entry 1
        = "Revision-number: 5\nProp-content-length: 39\nContent-length: 39\n\n"
            ++ "svn:log\nlog\nsvn:author\njonas\nPROPS-END\n" ++ "\n"
      ∧ byte_length "svn:log\nlog\nsvn:author\njonas\nPROPS-END\n" = 39 := by
  have h := revision_header_lengths example_property_h example_log DumpDelta.example_entry 1
    (example_options 0 5 8) DumpDelta.example_file_options (by decide) (by decide)
  have hlen : ∀ key value, example_property_h.property_strlen key value
      = byte_length (example_property_h.property_dump key value) := by
    intro key value
    cases value <;> rfl
  exact ⟨h.1, h.2.1 hlen (by decide) (by decide), h.2.2.1, h.2.2.2 hlen (by decide) (by decide)⟩

theorem dump_revision_header_past_int_max :
    ¬ ((revision_props_length example_long_property_h example_log.props : Nat) : Int) ≤ INT_MAX
      ∧ dump_revision_header example_long_property_h example_log 1 (example_options 0 5 8)
        = "Revision-number: 1\nProp-content-length: -2147483639\n"
            ++ "Content-length: -2147483639\n\n" := by
  constructor
  · decide
  · rfl

/-! ## Theorems on `dump_delta.c` -/

namespace DumpDelta

/-! ### Lists of node batons -/

theorem nth_lt {α : Type} (l : List α) (i : Nat) (y : α) (h : l[i]? = some y) :
    i < l.length := by
  by_contra hge
  rw [List.getElem?_eq_none (by omega)] at h
  exact Option.noConfusion h

theorem nth_set_self {α : Type} (l : List α) (i : Nat) (x y : α) (h : l[i]? = some y) :
    (l.set i x)[i]? = some x := by
  have hlt := nth_lt l i y h
  simp [List.getElem?_set, hlt]

theorem nth_set_other {α : Type} (l : List α) (i j : Nat) (x : α) (h : i ≠ j) :
    (l.set i x)[j]? = l[j]? := by
  simp [List.getElem?_set, h]

theorem nth_append_left {α : Type} (l : List α) (d : Nat) (x y : α) (h : l[d]? = some y) :
    (l ++ [x])[d]? = some y := by
  rw [List.getElem?_append_left (nth_lt l d y h)]
  exact h

theorem nth_append_length {α : Type} (l : List α) (x : α) : (l ++ [x])[l.length]? = some x := by
  simp

/-! ### The node header -/

theorem strrchr_plus_one_absent (c : Char) (base : List Char) (h : c ∉ base) :
    strrchr_plus_one base c = none := by
  induction base with
  | nil => rfl
  | cons x rest ih =>
    have hx : ¬ x = c := fun e => h (by simp [e])
    have hrest : c ∉ rest := fun e => h (by simp [e])
    simp [strrchr_plus_one, ih hrest, hx]

theorem strrchr_plus_one_last (c : Char) (front base : List Char) (h : c ∉ base) :
    strrchr_plus_one (front ++ c :: base) c = some base := by
  induction front with
  | nil => simp [strrchr_plus_one, strrchr_plus_one_absent c base h]
  | cons x rest ih => simp [strrchr_plus_one, ih]

theorem node_header_text_eq (opts : dump_options_t) (node : node_baton_t)
    (path : String) (kind : nodekind_t) (action : nodeaction_t) (front base : String)
    (hbaton : node.baton = pointer.baton) (hpath : node.path = some path)
    (haction : node.action = some action) (hkind : node.kind = some kind)
    (hurl : opts.prefix_is_file = true →
      opts.repo_eurl = front ++ "/" ++ base ∧ '/' ∉ base.data) :
    node_header_text opts node
      = some (expected_node_header opts.user_prefix
          (if opts.prefix_is_file = true then base else path) kind action) := by
  have hp : (if opts.prefix_is_file = true then
        (strrchr_plus_one opts.repo_eurl.data '/').map String.mk
      else node.path)
      = some (if opts.prefix_is_file = true then base else path) := by
    by_cases hf : opts.prefix_is_file = true
    · obtain ⟨hu, hb⟩ := hurl hf
      have hd : opts.repo_eurl.data = front.data ++ '/' :: base.data := by
        rw [hu]
        simp [String.data_append]
      simp only [hf, if_true, hd, strrchr_plus_one_last '/' front.data base.data hb,
        Option.map_some']
    · have hf2 : opts.prefix_is_file = false := by simpa using hf
      simp [hf2, hpath]
  unfold node_header_text
  simp only [hbaton, baton_opts, hp, haction, hkind]
  unfold expected_node_header
  cases action <;> cases kind <;> cases hup : opts.user_prefix <;>
    simp [String.ext_iff, String.data_append, node_action_text, SVN_REPOS_DUMPFILE_NODE_PATH,
      SVN_REPOS_DUMPFILE_NODE_KIND, SVN_REPOS_DUMPFILE_NODE_ACTION]

/-- C9: for a node whose path, kind and action are set, `dump_delta_node_header`
appends to the output exactly the path line, the kind line unless the action
is a deletion, the action line and two blank lines; the path is the text after
the last `/` of the root URL when the export root is a single file and the
stored path otherwise, with the user prefix, when there is one, put in front
of it as it is; the node is then marked as dumped. -/
theorem dump_delta_node_header_format (opts : dump_options_t) (s : edit_state) (id : Nat)
    (node : node_baton_t) (path : String) (kind : nodekind_t) (action : nodeaction_t)
    (front base : String)
    (hnode : s.nodes[id]? = some node)
    (hbaton : node.baton = pointer.baton) (hpath : node.path = some path)
    (haction : node.action = some action) (hkind : node.kind = some kind)
    (hurl : opts.prefix_is_file = true →
      opts.repo_eurl = front ++ "/" ++ base ∧ '/' ∉ base.data) :
    dump_delta_node_header opts s id
      = some { nodes := s.nodes.set id { node with dumped := true },
               output := s.output ++ expected_node_header opts.user_prefix
                 (if opts.prefix_is_file = true then base else path) kind action,
               errors := s.errors,
               headers := s.headers ++ [id] } := by
  unfold dump_delta_node_header
  rw [hnode]
  simp only [node_header_text_eq opts node path kind action front base hbaton hpath haction
    hkind hurl]

/-- C9 for a single-file export with the user prefix `branch/`: the header of
a replaced file and that of a deleted node. -/
theorem dump_delta_node_header_format_witness :
    dump_delta_node_header example_file_options
        { nodes := [example_root,
            example_node "trunk/a.txt" nodekind_t.NK_FILE nodeaction_t.NA_REPLACE false],
          output := "", errors := "", headers := [] } 1
      = some { nodes := [example_root,
                 example_node "trunk/a.txt" nodekind_t.NK_FILE nodeaction_t.NA_REPLACE true],
               output := "Node-path: branch/a.txt\nNode-kind: file\nNode-action: replace\n\n\n",
               errors := "", headers := [1] }
      ∧ dump_delta_node_header example_delta_options
        { nodes := [example_root,
            example_node "trunk/b" nodekind_t.NK_DIRECTORY nodeaction_t.NA_DELETE false],
          output := "", errors := "", headers := [] } 1
      = some { nodes := [example_root,
                 example_node "trunk/b" nodekind_t.NK_DIRECTORY nodeaction_t.NA_DELETE true],
               output := "Node-path: trunk/b\nNode-action: delete\n\n\n",
               errors := "", headers := [1] } :=
  ⟨dump_delta_node_header_format example_file_options
      { nodes := [example_root,
          example_node "trunk/a.txt" nodekind_t.NK_FILE nodeaction_t.NA_REPLACE false],
        output := "", errors := "", headers := [] } 1
      (example_node "trunk/a.txt" nodekind_t.NK_FILE nodeaction_t.NA_REPLACE false)
      "trunk/a.txt" nodekind_t.NK_FILE nodeaction_t.NA_REPLACE "http://host/repo" "a.txt"
      (by rfl) (by rfl) (by rfl) (by rfl) (by rfl) (fun _ => ⟨by decide, by decide⟩),
    dump_delta_node_header_format example_delta_options
      { nodes := [example_root,
          example_node "trunk/b" nodekind_t.NK_DIRECTORY nodeaction_t.NA_DELETE false],
        output := "", errors := "", headers := [] } 1
      (example_node "trunk/b" nodekind_t.NK_DIRECTORY nodeaction_t.NA_DELETE false)
      "trunk/b" nodekind_t.NK_DIRECTORY nodeaction_t.NA_DELETE "" ""
      (by rfl) (by rfl) (by rfl) (by rfl) (by rfl) (fun h => absurd h (by decide))⟩

theorem delete_entry_none (opts : dump_options_t) (s : edit_state) (path : String)
    (parent_baton : pointer) :
    delete_entry opts s path parent_baton = none := by
  unfold delete_entry
  cases parent_baton with
  | baton => rfl
  | node id =>
    simp only [node_of, baton_opts]
    cases s.nodes[id]? with
    | none => rfl
    | some parent =>
      simp only
      cases dump_unless_dumped opts s id parent <;> rfl

/-! ### The callbacks on short passes -/

theorem close_directory_silent (s s1 : edit_state) (dir_baton : pointer)
    (h : close_directory s dir_baton = some s1) :
    s1.output = s.output ∧ s1.headers = s.headers := by
  unfold close_directory at h
  cases hn : node_of s dir_baton with
  | none => simp [hn] at h
  | some r =>
    obtain ⟨id, node⟩ := r
    simp only [hn, Option.some.injEq] at h
    subst h
    exact ⟨rfl, rfl⟩

theorem open_file_no_baton (opts : dump_options_t) (s : edit_state) (path : String)
    (parent_baton : pointer) (r : edit_state × Option pointer)
    (h : open_file opts s path parent_baton = some r) : r.2 = none := by
  unfold open_file at h
  cases hc : create_child opts s path parent_baton nodekind_t.NK_FILE nodeaction_t.NA_CHANGE with
  | none => simp [hc] at h
  | some c =>
    simp only [hc, Option.some.injEq] at h
    subst h
    rfl

theorem dump_revision_header_ignores_opts (P : property_h) (revision : log_revision_t)
    (local_revnum : Int) (opts opts1 : Rsvndump.dump_options_t) :
    dump_revision_header P revision local_revnum opts
      = dump_revision_header P revision local_revnum opts1 :=
  rfl


/-- C3: a directory added under the root and closed at once: `close_directory`
writes no header, and the pass ends with the directory not dumped and nothing
in the output. -/
theorem close_directory_writes_no_header :
    run example_delta_options edit_state.init
        [callback.open_root pointer.baton,
         callback.add_directory "trunk" (pointer.node 0),
         callback.close_directory (pointer.node 1)]
      = some { nodes := [example_root,
                 example_node "trunk" nodekind_t.NK_DIRECTORY nodeaction_t.NA_ADD false],
               output := "", errors := "", headers := [] } := by
  rfl

/-- C6: `open_file` under the root creates the node for `a.txt` with the
action `change`, but stores nothing in `*file_baton`: no node is handed back
on which `close_file` could be called, and no header has been written. -/
theorem open_file_hands_back_no_node :
    (open_root edit_state.init pointer.baton).bind
        (fun root => open_file example_delta_options root.1 "a.txt" root.2)
      = some ({ nodes := [example_root,
                  example_node "a.txt" nodekind_t.NK_FILE nodeaction_t.NA_CHANGE false],
                output := "", errors := "", headers := [] }, none) := by
  rfl

/-- C8: `delete_entry` casts the same `parent_baton` to `node_baton_t *`, for
the parent, and to `baton_t *`, for the options; it points to one of the two,
so that the function never gets to write the deletion record: on every input
its behaviour is undefined. -/
theorem delete_entry_undefined (opts : dump_options_t) (s : edit_state) (path : String)
    (parent_baton : pointer) :
    delete_entry opts s path parent_baton = none :=
  delete_entry_none opts s path parent_baton

/-- C4, refuted: a directory added under the root whose only notification is
the `add_file` of a child has its header written, before that of the child. -/
theorem child_add_writes_directory_header :
    run example_delta_options edit_state.init
        [callback.open_root pointer.baton,
         callback.add_directory "trunk" (pointer.node 0),
         callback.add_file "trunk/a.txt" (pointer.node 1),
         callback.close_file (pointer.node 2),
         callback.close_directory (pointer.node 1)]
      = some { nodes := [example_root,
                 example_node "trunk" nodekind_t.NK_DIRECTORY nodeaction_t.NA_ADD true,
                 example_node "trunk/a.txt" nodekind_t.NK_FILE nodeaction_t.NA_ADD true],
               output := "Node-path: trunk\nNode-kind: dir\nNode-action: add\n\n\n"
                 ++ "Node-path: trunk/a.txt\nNode-kind: file\nNode-action: add\n\n\n",
               errors := "", headers := [1, 2] } := by
  rfl

/-- C5, refuted: a file added under the root receives a property and is
closed: its header is written once and is made of the path, kind and action
lines only; the text `Prop-content-length` does not occur in the output. -/
theorem file_header_has_no_length_lines :
    run example_delta_options edit_state.init
        [callback.open_root pointer.baton,
         callback.add_file "a.txt" (pointer.node 0),
         callback.change_file_prop (pointer.node 1) "svn:eol-style" (some "native"),
         callback.close_file (pointer.node 1)]
      = some { nodes := [example_root,
                 example_node "a.txt" nodekind_t.NK_FILE nodeaction_t.NA_ADD true],
               output := "Node-path: a.txt\nNode-kind: file\nNode-action: add\n\n\n",
               errors := "", headers := [1] }
      ∧ ¬ ("Prop-content-length".data
            <:+: "Node-path: a.txt\nNode-kind: file\nNode-action: add\n\n\n".data) := by
  constructor
  · rfl
  · decide

/-! ### Sequences of callbacks -/

theorem run_append (opts : dump_options_t) (s : edit_state) (a b : List callback) :
    run opts s (a ++ b) = (run opts s a).bind (fun s1 => run opts s1 b) := by
  induction a generalizing s with
  | nil => rfl
  | cons c rest ih =>
    simp only [List.cons_append, run]
    cases step opts s c with
    | none => rfl
    | some s1 => exact ih s1

theorem dump_delta_node_header_some (opts : dump_options_t) (s : edit_state) (id : Nat)
    (node : node_baton_t) (text : String)
    (hnode : s.nodes[id]? = some node) (htext : node_header_text opts node = some text) :
    dump_delta_node_header opts s id
      = some { nodes := s.nodes.set id { node with dumped := true },
               output := s.output ++ text, errors := s.errors,
               headers := s.headers ++ [id] } := by
  unfold dump_delta_node_header
  rw [hnode]
  simp only [htext]

/-! ### A node that is dumped stays dumped and gets no further header -/

theorem dumped_in_set (nodes : List node_baton_t) (d id : Nat) (node node1 : node_baton_t)
    (hd : dumped_in nodes d) (hnode : nodes[id]? = some node)
    (hkeep : node.dumped = true → node1.dumped = true) :
    dumped_in (nodes.set id node1) d := by
  obtain ⟨n, hn, hdn⟩ := hd
  by_cases hid : id = d
  · subst hid
    rw [hnode] at hn
    have hnn : node = n := Option.some.inj hn
    exact ⟨node1, nth_set_self nodes id node1 node hnode, hkeep (by rw [hnn]; exact hdn)⟩
  · exact ⟨n, by rw [nth_set_other nodes id d node1 hid]; exact hn, hdn⟩

theorem dumped_in_append (nodes : List node_baton_t) (d : Nat) (x : node_baton_t)
    (hd : dumped_in nodes d) : dumped_in (nodes ++ [x]) d := by
  obtain ⟨n, hn, hdn⟩ := hd
  exact ⟨n, nth_append_left nodes d x n hn, hdn⟩

theorem dump_unless_dumped_keeps (opts : dump_options_t) (s s1 : edit_state) (id d : Nat)
    (node : node_baton_t) (hnode : s.nodes[id]? = some node)
    (hrun : dump_unless_dumped opts s id node = some s1) (hd : dumped_in s.nodes d) :
    dumped_in s1.nodes d ∧ s1.headers.count d = s.headers.count d := by
  unfold dump_unless_dumped at hrun
  by_cases hund : node.dumped = false
  · rw [if_pos hund] at hrun
    unfold dump_delta_node_header at hrun
    rw [hnode] at hrun
    simp only at hrun
    cases htext : node_header_text opts node with
    | none =>
      rw [htext] at hrun
      exact Option.noConfusion hrun
    | some text =>
      rw [htext] at hrun
      simp only [Option.some.injEq] at hrun
      subst hrun
      have hne : id ≠ d := by
        intro hid
        subst hid
        obtain ⟨n, hn, hdn⟩ := hd
        rw [hnode] at hn
        have hnn : node = n := Option.some.inj hn
        rw [hnn, hdn] at hund
        exact Bool.noConfusion hund
      refine ⟨dumped_in_set s.nodes d id node _ hd hnode (fun _ => rfl), ?_⟩
      simp [List.count_append, List.count_singleton, hne]
  · rw [if_neg hund] at hrun
    simp only [Option.some.injEq] at hrun
    subst hrun
    exact ⟨hd, rfl⟩

theorem create_child_keeps (opts : dump_options_t) (s s1 : edit_state) (path : String)
    (parent_baton : pointer) (kind : nodekind_t) (action : nodeaction_t) (child d : Nat)
    (hrun : create_child opts s path parent_baton kind action = some (s1, child))
    (hd : dumped_in s.nodes d) :
    dumped_in s1.nodes d ∧ s1.headers.count d = s.headers.count d := by
  unfold create_child at hrun
  cases parent_baton with
  | baton => simp [node_of] at hrun
  | node id =>
    simp only [node_of] at hrun
    cases hnode : s.nodes[id]? with
    | none => simp [hnode] at hrun
    | some parent =>
      simp only [hnode] at hrun
      cases hflush : dump_unless_dumped opts s id parent with
      | none => simp [hflush] at hrun
      | some s2 =>
        obtain ⟨hd2, hc2⟩ := dump_unless_dumped_keeps opts s s2 id d parent hnode hflush hd
        simp only [hflush, dump_delta_node_create, nth_append_length, Option.some.injEq,
          Prod.mk.injEq] at hrun
        obtain ⟨hs, _⟩ := hrun
        subst hs
        refine ⟨?_, hc2⟩
        exact dumped_in_set _ d _ _ _ (dumped_in_append s2.nodes d _ hd2)
          (nth_append_length s2.nodes _) (fun h => Bool.noConfusion h)

theorem append_prop_keeps (s s1 : edit_state) (node_baton : pointer) (name : String)
    (value : Option String) (d : Nat)
    (hrun : append_prop s node_baton name value = some s1) (hd : dumped_in s.nodes d) :
    dumped_in s1.nodes d ∧ s1.headers.count d = s.headers.count d := by
  unfold append_prop at hrun
  cases node_baton with
  | baton => simp [node_of] at hrun
  | node id =>
    simp only [node_of] at hrun
    cases hnode : s.nodes[id]? with
    | none => simp [hnode] at hrun
    | some node =>
      simp only [hnode, Option.some.injEq] at hrun
      subst hrun
      exact ⟨dumped_in_set s.nodes d id node _ hd hnode (fun h => h), rfl⟩

theorem close_file_keeps (opts : dump_options_t) (s s1 : edit_state) (file_baton : pointer)
    (d : Nat) (hrun : close_file opts s file_baton = some s1) (hd : dumped_in s.nodes d) :
    dumped_in s1.nodes d ∧ s1.headers.count d = s.headers.count d := by
  unfold close_file at hrun
  cases file_baton with
  | baton => simp [node_of] at hrun
  | node id =>
    simp only [node_of] at hrun
    cases hnode : s.nodes[id]? with
    | none => simp [hnode] at hrun
    | some node =>
      simp only [hnode] at hrun
      cases hflush : dump_unless_dumped opts s id node with
      | none => simp [hflush] at hrun
      | some s2 =>
        obtain ⟨hd2, hc2⟩ := dump_unless_dumped_keeps opts s s2 id d node hnode hflush hd
        simp only [hflush] at hrun
        cases hnode2 : s2.nodes[id]? with
        | none => simp [hnode2] at hrun
        | some node2 =>
          simp only [hnode2, Option.some.injEq] at hrun
          subst hrun
          exact ⟨dumped_in_set s2.nodes d id node2 _ hd2 hnode2 (fun h => h), hc2⟩

theorem step_keeps (opts : dump_options_t) (s s1 : edit_state) (c : callback) (d : Nat)
    (hstep : step opts s c = some s1) (hd : dumped_in s.nodes d) :
    dumped_in s1.nodes d ∧ s1.headers.count d = s.headers.count d := by
  cases c with
  | set_target_revision r =>
    simp only [step, set_target_revision, Option.some.injEq] at hstep
    subst hstep
    exact ⟨hd, rfl⟩
  | open_root b =>
    simp only [step, open_root, dump_delta_node_create, nth_append_length, Option.map_some',
      Option.some.injEq] at hstep
    subst hstep
    exact ⟨dumped_in_set _ d _ _ _ (dumped_in_append s.nodes d _ hd)
      (nth_append_length s.nodes _) (fun _ => rfl), rfl⟩
  | delete_entry path b =>
    simp only [step, delete_entry_none] at hstep
    exact Option.noConfusion hstep
  | add_directory path b =>
    simp only [step, add_directory] at hstep
    cases hc : create_child opts s path b nodekind_t.NK_DIRECTORY nodeaction_t.NA_ADD with
    | none => simp [hc] at hstep
    | some r =>
      obtain ⟨s2, child⟩ := r
      simp only [hc, Option.map_some', Option.some.injEq] at hstep
      subst hstep
      exact create_child_keeps opts s s2 path b _ _ child d hc hd
  | open_directory path b =>
    simp only [step, open_directory, Option.some.injEq] at hstep
    subst hstep
    exact ⟨hd, rfl⟩
  | change_dir_prop b name value =>
    exact append_prop_keeps s s1 b name value d hstep hd
  | close_directory b =>
    simp only [step, close_directory] at hstep
    cases b with
    | baton => simp [node_of] at hstep
    | node id =>
      simp only [node_of] at hstep
      cases hnode : s.nodes[id]? with
      | none => simp [hnode] at hstep
      | some node =>
        simp only [hnode, Option.some.injEq] at hstep
        subst hstep
        exact ⟨dumped_in_set s.nodes d id node _ hd hnode (fun h => h), rfl⟩
  | absent_directory path b =>
    simp only [step, absent_directory, Option.some.injEq] at hstep
    subst hstep
    exact ⟨hd, rfl⟩
  | add_file path b =>
    simp only [step, add_file] at hstep
    cases hc : create_child opts s path b nodekind_t.NK_FILE nodeaction_t.NA_ADD with
    | none => simp [hc] at hstep
    | some r =>
      obtain ⟨s2, child⟩ := r
      simp only [hc, Option.map_some', Option.some.injEq] at hstep
      subst hstep
      exact create_child_keeps opts s s2 path b _ _ child d hc hd
  | open_file path b =>
    simp only [step, open_file] at hstep
    cases hc : create_child opts s path b nodekind_t.NK_FILE nodeaction_t.NA_CHANGE with
    | none => simp [hc] at hstep
    | some r =>
      obtain ⟨s2, child⟩ := r
      simp only [hc, Option.map_some', Option.some.injEq] at hstep
      subst hstep
      exact create_child_keeps opts s s2 path b _ _ child d hc hd
  | apply_textdelta b =>
    simp only [step, apply_textdelta] at hstep
    cases b with
    | baton => simp [node_of] at hstep
    | node id =>
      simp only [node_of] at hstep
      cases hnode : s.nodes[id]? with
      | none => simp [hnode] at hstep
      | some node =>
        simp only [hnode] at hstep
        cases hb : baton_opts opts node.baton with
        | none => simp [hb] at hstep
        | some o =>
          simp only [hb, Option.some.injEq] at hstep
          subst hstep
          exact ⟨dumped_in_set s.nodes d id node _ hd hnode (fun h => h), rfl⟩
  | change_file_prop b name value =>
    exact append_prop_keeps s s1 b name value d hstep hd
  | close_file b =>
    exact close_file_keeps opts s s1 b d hstep hd
  | absent_file path b =>
    simp only [step, absent_file, Option.some.injEq] at hstep
    subst hstep
    exact ⟨hd, rfl⟩
  | close_edit =>
    simp only [step, close_edit, Option.some.injEq] at hstep
    subst hstep
    exact ⟨hd, rfl⟩
  | abort_edit =>
    simp only [step, abort_edit, Option.some.injEq] at hstep
    subst hstep
    exact ⟨hd, rfl⟩

theorem run_keeps (opts : dump_options_t) (cs : List callback) (d : Nat) :
    ∀ (s s1 : edit_state), run opts s cs = some s1 → dumped_in s.nodes d →
      dumped_in s1.nodes d ∧ s1.headers.count d = s.headers.count d := by
  induction cs with
  | nil =>
    intro s s1 hrun hd
    simp only [run, Option.some.injEq] at hrun
    subst hrun
    exact ⟨hd, rfl⟩
  | cons c rest ih =>
    intro s s1 hrun hd
    simp only [run] at hrun
    cases hstep : step opts s c with
    | none => simp [hstep] at hrun
    | some s2 =>
      simp only [hstep] at hrun
      obtain ⟨hd2, hc2⟩ := step_keeps opts s s2 c d hstep hd
      obtain ⟨hd1, hc1⟩ := ih s2 s1 hrun hd2
      exact ⟨hd1, by rw [hc1, hc2]⟩

/-! ### The headers written agree with the `dumped` marks -/

theorem headers_sound_init : headers_sound edit_state.init.nodes edit_state.init.headers := by
  refine ⟨fun d => ?_, fun d _ => ?_, fun d node h _ => ?_⟩
  · simp [edit_state.init]
  · simp [edit_state.init]
  · simp [edit_state.init] at h

theorem headers_sound_set (nodes : List node_baton_t) (headers : List Nat) (id : Nat)
    (node node1 : node_baton_t) (hs : headers_sound nodes headers)
    (hnode : nodes[id]? = some node)
    (hkeep : node1.dumped = false → node.dumped = false) :
    headers_sound (nodes.set id node1) headers := by
  obtain ⟨h1, h2, h3⟩ := hs
  refine ⟨h1, fun d hd => h2 d (by simpa using hd), fun d n hn hund => ?_⟩
  by_cases hid : id = d
  · subst hid
    rw [nth_set_self nodes id node1 node hnode] at hn
    have hnn : node1 = n := Option.some.inj hn
    exact h3 id node hnode (hkeep (by rw [hnn]; exact hund))
  · rw [nth_set_other nodes id d node1 hid] at hn
    exact h3 d n hn hund

theorem headers_sound_append (nodes : List node_baton_t) (headers : List Nat)
    (x : node_baton_t) (hs : headers_sound nodes headers) :
    headers_sound (nodes ++ [x]) headers := by
  obtain ⟨h1, h2, h3⟩ := hs
  refine ⟨h1, fun d hd => h2 d (by simp at hd; omega), fun d n hn hund => ?_⟩
  by_cases hlt : d < nodes.length
  · rw [List.getElem?_append_left hlt] at hn
    exact h3 d n hn hund
  · exact h2 d (by omega)

theorem headers_sound_header (nodes : List node_baton_t) (headers : List Nat) (id : Nat)
    (node : node_baton_t) (hs : headers_sound nodes headers)
    (hnode : nodes[id]? = some node) (hund : node.dumped = false) :
    headers_sound (nodes.set id { node with dumped := true }) (headers ++ [id]) := by
  obtain ⟨h1, h2, h3⟩ := hs
  have h0 : headers.count id = 0 := h3 id node hnode hund
  have hlt := nth_lt nodes id node hnode
  refine ⟨fun d => ?_, fun d hd => ?_, fun d n hn hundn => ?_⟩
  · by_cases hid : id = d
    · subst hid
      simp [List.count_append, List.count_singleton, h0]
    · have := h1 d
      simp [List.count_append, List.count_singleton, hid]
      exact this
  · have hd2 : nodes.length ≤ d := by simpa using hd
    have hid : id ≠ d := by omega
    simp [List.count_append, List.count_singleton, hid]
    exact h2 d hd2
  · by_cases hid : id = d
    · subst hid
      rw [nth_set_self nodes id _ node hnode] at hn
      have hnn := Option.some.inj hn
      rw [← hnn] at hundn
      exact Bool.noConfusion hundn
    · rw [nth_set_other nodes id d _ hid] at hn
      simp [List.count_append, List.count_singleton, hid]
      exact h3 d n hn hundn

theorem dump_unless_dumped_sound (opts : dump_options_t) (s s1 : edit_state) (id : Nat)
    (node : node_baton_t) (hnode : s.nodes[id]? = some node)
    (hrun : dump_unless_dumped opts s id node = some s1)
    (hs : headers_sound s.nodes s.headers) :
    headers_sound s1.nodes s1.headers := by
  unfold dump_unless_dumped at hrun
  by_cases hund : node.dumped = false
  · rw [if_pos hund] at hrun
    unfold dump_delta_node_header at hrun
    rw [hnode] at hrun
    simp only at hrun
    cases htext : node_header_text opts node with
    | none =>
      rw [htext] at hrun
      exact Option.noConfusion hrun
    | some text =>
      rw [htext] at hrun
      simp only [Option.some.injEq] at hrun
      subst hrun
      exact headers_sound_header s.nodes s.headers id node hs hnode hund
  · rw [if_neg hund] at hrun
    simp only [Option.some.injEq] at hrun
    subst hrun
    exact hs

theorem create_child_sound (opts : dump_options_t) (s s1 : edit_state) (path : String)
    (parent_baton : pointer) (kind : nodekind_t) (action : nodeaction_t) (child : Nat)
    (hrun : create_child opts s path parent_baton kind action = some (s1, child))
    (hs : headers_sound s.nodes s.headers) :
    headers_sound s1.nodes s1.headers := by
  unfold create_child at hrun
  cases parent_baton with
  | baton => simp [node_of] at hrun
  | node id =>
    simp only [node_of] at hrun
    cases hnode : s.nodes[id]? with
    | none => simp [hnode] at hrun
    | some parent =>
      simp only [hnode] at hrun
      cases hflush : dump_unless_dumped opts s id parent with
      | none => simp [hflush] at hrun
      | some s2 =>
        have hs2 := dump_unless_dumped_sound opts s s2 id parent hnode hflush hs
        simp only [hflush, dump_delta_node_create, nth_append_length, Option.some.injEq,
          Prod.mk.injEq] at hrun
        obtain ⟨hs1, _⟩ := hrun
        subst hs1
        exact headers_sound_set _ _ _ _ _ (headers_sound_append s2.nodes s2.headers _ hs2)
          (nth_append_length s2.nodes _) (fun _ => rfl)

theorem append_prop_sound (s s1 : edit_state) (node_baton : pointer) (name : String)
    (value : Option String)
    (hrun : append_prop s node_baton name value = some s1)
    (hs : headers_sound s.nodes s.headers) :
    headers_sound s1.nodes s1.headers := by
  unfold append_prop at hrun
  cases node_baton with
  | baton => simp [node_of] at hrun
  | node id =>
    simp only [node_of] at hrun
    cases hnode : s.nodes[id]? with
    | none => simp [hnode] at hrun
    | some node =>
      simp only [hnode, Option.some.injEq] at hrun
      subst hrun
      exact headers_sound_set s.nodes s.headers id node _ hs hnode (fun h => h)

theorem close_file_sound (opts : dump_options_t) (s s1 : edit_state) (file_baton : pointer)
    (hrun : close_file opts s file_baton = some s1)
    (hs : headers_sound s.nodes s.headers) :
    headers_sound s1.nodes s1.headers := by
  unfold close_file at hrun
  cases file_baton with
  | baton => simp [node_of] at hrun
  | node id =>
    simp only [node_of] at hrun
    cases hnode : s.nodes[id]? with
    | none => simp [hnode] at hrun
    | some node =>
      simp only [hnode] at hrun
      cases hflush : dump_unless_dumped opts s id node with
      | none => simp [hflush] at hrun
      | some s2 =>
        have hs2 := dump_unless_dumped_sound opts s s2 id node hnode hflush hs
        simp only [hflush] at hrun
        cases hnode2 : s2.nodes[id]? with
        | none => simp [hnode2] at hrun
        | some node2 =>
          simp only [hnode2, Option.some.injEq] at hrun
          subst hrun
          exact headers_sound_set s2.nodes s2.headers id node2 _ hs2 hnode2 (fun h => h)

theorem step_sound (opts : dump_options_t) (s s1 : edit_state) (c : callback)
    (hstep : step opts s c = some s1) (hs : headers_sound s.nodes s.headers) :
    headers_sound s1.nodes s1.headers := by
  cases c with
  | set_target_revision r =>
    simp only [step, set_target_revision, Option.some.injEq] at hstep
    subst hstep
    exact hs
  | open_root b =>
    simp only [step, open_root, dump_delta_node_create, nth_append_length, Option.map_some',
      Option.some.injEq] at hstep
    subst hstep
    exact headers_sound_set _ _ _ _ _ (headers_sound_append s.nodes s.headers _ hs)
      (nth_append_length s.nodes _) (fun h => Bool.noConfusion h)
  | delete_entry path b =>
    simp only [step, delete_entry_none] at hstep
    exact Option.noConfusion hstep
  | add_directory path b =>
    simp only [step, add_directory] at hstep
    cases hc : create_child opts s path b nodekind_t.NK_DIRECTORY nodeaction_t.NA_ADD with
    | none => simp [hc] at hstep
    | some r =>
      obtain ⟨s2, child⟩ := r
      simp only [hc, Option.map_some', Option.some.injEq] at hstep
      subst hstep
      exact create_child_sound opts s s2 path b _ _ child hc hs
  | open_directory path b =>
    simp only [step, open_directory, Option.some.injEq] at hstep
    subst hstep
    exact hs
  | change_dir_prop b name value =>
    exact append_prop_sound s s1 b name value hstep hs
  | close_directory b =>
    simp only [step, close_directory] at hstep
    cases b with
    | baton => simp [node_of] at hstep
    | node id =>
      simp only [node_of] at hstep
      cases hnode : s.nodes[id]? with
      | none => simp [hnode] at hstep
      | some node =>
        simp only [hnode, Option.some.injEq] at hstep
        subst hstep
        exact headers_sound_set s.nodes s.headers id node _ hs hnode (fun h => h)
  | absent_directory path b =>
    simp only [step, absent_directory, Option.some.injEq] at hstep
    subst hstep
    exact hs
  | add_file path b =>
    simp only [step, add_file] at hstep
    cases hc : create_child opts s path b nodekind_t.NK_FILE nodeaction_t.NA_ADD with
    | none => simp [hc] at hstep
    | some r =>
      obtain ⟨s2, child⟩ := r
      simp only [hc, Option.map_some', Option.some.injEq] at hstep
      subst hstep
      exact create_child_sound opts s s2 path b _ _ child hc hs
  | open_file path b =>
    simp only [step, open_file] at hstep
    cases hc : create_child opts s path b nodekind_t.NK_FILE nodeaction_t.NA_CHANGE with
    | none => simp [hc] at hstep
    | some r =>
      obtain ⟨s2, child⟩ := r
      simp only [hc, Option.map_some', Option.some.injEq] at hstep
      subst hstep
      exact create_child_sound opts s s2 path b _ _ child hc hs
  | apply_textdelta b =>
    simp only [step, apply_textdelta] at hstep
    cases b with
    | baton => simp [node_of] at hstep
    | node id =>
      simp only [node_of] at hstep
      cases hnode : s.nodes[id]? with
      | none => simp [hnode] at hstep
      | some node =>
        simp only [hnode] at hstep
        cases hb : baton_opts opts node.baton with
        | none => simp [hb] at hstep
        | some o =>
          simp only [hb, Option.some.injEq] at hstep
          subst hstep
          exact headers_sound_set s.nodes s.headers id node _ hs hnode (fun h => h)
  | change_file_prop b name value =>
    exact append_prop_sound s s1 b name value hstep hs
  | close_file b =>
    exact close_file_sound opts s s1 b hstep hs
  | absent_file path b =>
    simp only [step, absent_file, Option.some.injEq] at hstep
    subst hstep
    exact hs
  | close_edit =>
    simp only [step, close_edit, Option.some.injEq] at hstep
    subst hstep
    exact hs
  | abort_edit =>
    simp only [step, abort_edit, Option.some.injEq] at hstep
    subst hstep
    exact hs

theorem run_sound (opts : dump_options_t) (cs : List callback) :
    ∀ (s s1 : edit_state), run opts s cs = some s1 → headers_sound s.nodes s.headers →
      headers_sound s1.nodes s1.headers := by
  induction cs with
  | nil =>
    intro s s1 hrun hs
    simp only [run, Option.some.injEq] at hrun
    subst hrun
    exact hs
  | cons c rest ih =>
    intro s s1 hrun hs
    simp only [run] at hrun
    cases hstep : step opts s c with
    | none => simp [hstep] at hrun
    | some s2 =>
      simp only [hstep] at hrun
      exact ih s2 s1 hrun (step_sound opts s s2 c hstep hs)

/-! ### The parent is dumped by the first child -/

theorem create_child_dumps_parent (opts : dump_options_t) (s : edit_state) (path : String)
    (d : Nat) (node : node_baton_t) (text : String) (kind : nodekind_t)
    (action : nodeaction_t)
    (hnode : s.nodes[d]? = some node) (hund : node.dumped = false)
    (htext : node_header_text opts node = some text) :
    ∃ s2 child, create_child opts s path (pointer.node d) kind action = some (s2, child)
      ∧ s2.output = s.output ++ text ∧ s2.headers = s.headers ++ [d]
      ∧ dumped_in s2.nodes d := by
  have hflush : dump_unless_dumped opts s d node
      = some { nodes := s.nodes.set d { node with dumped := true },
               output := s.output ++ text, errors := s.errors,
               headers := s.headers ++ [d] } := by
    unfold dump_unless_dumped
    rw [if_pos hund]
    exact dump_delta_node_header_some opts s d node text hnode htext
  unfold create_child
  simp only [node_of, hnode, hflush, dump_delta_node_create, nth_append_length]
  refine ⟨_, _, rfl, rfl, rfl, ?_⟩
  · exact dumped_in_set _ d _ _ _
      (dumped_in_append _ d _
        ⟨_, nth_set_self s.nodes d { node with dumped := true } node hnode, rfl⟩)
      (nth_append_length _ _) (fun h => Bool.noConfusion h)

/-- C4, amended: at any point of a diff pass, when a directory node that is
not yet dumped is named as parent by an `add_file` or `add_directory`
callback, that callback writes the header of the directory (path,
`Node-kind: dir`, action, two blank lines) at the end of the output, before
anything of the child; and whatever callbacks follow, no further header is
written for the directory: at the end of the pass exactly one header has been
written for it. -/
theorem first_child_add_dumps_directory (opts : dump_options_t) (before : List callback)
    (s s1 : edit_state) (d : Nat)
    (node : node_baton_t) (path : String) (action : nodeaction_t) (front base : String)
    (c : callback) (cs : List callback)
    (hreach : run opts edit_state.init before = some s)
    (hnode : s.nodes[d]? = some node)
    (hbaton : node.baton = pointer.baton) (hpath : node.path = some path)
    (haction : node.action = some action) (hkind : node.kind = some nodekind_t.NK_DIRECTORY)
    (hund : node.dumped = false)
    (hurl : opts.prefix_is_file = true →
      opts.repo_eurl = front ++ "/" ++ base ∧ '/' ∉ base.data)
    (hc : is_child_add d c = true)
    (hrun : run opts s (c :: cs) = some s1) :
    (∃ s2, step opts s c = some s2
        ∧ s2.output = s.output ++ expected_node_header opts.user_prefix
            (if opts.prefix_is_file = true then base else path) nodekind_t.NK_DIRECTORY action
        ∧ s2.headers = s.headers ++ [d])
      ∧ s1.headers.count d = 1 := by
  have htext := node_header_text_eq opts node path nodekind_t.NK_DIRECTORY action front base
    hbaton hpath haction hkind hurl
  have hzero : s.headers.count d = 0 :=
    (run_sound opts before edit_state.init s hreach headers_sound_init).2.2 d node hnode hund
  have hstep : ∃ s2, step opts s c = some s2
      ∧ s2.output = s.output ++ expected_node_header opts.user_prefix
          (if opts.prefix_is_file = true then base else path) nodekind_t.NK_DIRECTORY action
      ∧ s2.headers = s.headers ++ [d] ∧ dumped_in s2.nodes d := by
    cases c with
    | add_file p b =>
      cases b with
      | baton => simp [is_child_add] at hc
      | node parent =>
        simp only [is_child_add, decide_eq_true_eq] at hc
        subst hc
        obtain ⟨s2, child, h1, h2, h3, h4⟩ := create_child_dumps_parent opts s p parent node _
          nodekind_t.NK_FILE nodeaction_t.NA_ADD hnode hund htext
        exact ⟨s2, by simp only [step, add_file, h1, Option.map_some'], h2, h3, h4⟩
    | add_directory p b =>
      cases b with
      | baton => simp [is_child_add] at hc
      | node parent =>
        simp only [is_child_add, decide_eq_true_eq] at hc
        subst hc
        obtain ⟨s2, child, h1, h2, h3, h4⟩ := create_child_dumps_parent opts s p parent node _
          nodekind_t.NK_DIRECTORY nodeaction_t.NA_ADD hnode hund htext
        exact ⟨s2, by simp only [step, add_directory, h1, Option.map_some'], h2, h3, h4⟩
    | _ => simp [is_child_add] at hc
  obtain ⟨s2, h1, h2, h3, h4⟩ := hstep
  refine ⟨⟨s2, h1, h2, h3⟩, ?_⟩
  simp only [run, h1] at hrun
  obtain ⟨_, hcount⟩ := run_keeps opts cs d s2 s1 hrun h4
  rw [hcount, h3]
  simp [List.count_append, List.count_singleton, hzero]

/-- C4, amended, on the directory `trunk` added under the root, whose first
child is the added file `trunk/a.txt`: the directory header is written by
`add_file`, and it is the only header of the directory in the pass. -/
theorem first_child_add_dumps_directory_witness :
    (∃ s2, step example_delta_options
          { nodes := [example_root,
              example_node "trunk" nodekind_t.NK_DIRECTORY nodeaction_t.NA_ADD false],
            output := "", errors := "", headers := [] }
          (callback.add_file "trunk/a.txt" (pointer.node 1)) = some s2
        ∧ s2.output = "" ++ "Node-path: trunk\nNode-kind: dir\nNode-action: add\n\n\n"
        ∧ s2.headers = [] ++ [1])
      ∧ ([1, 2] : List Nat).count 1 = 1 :=
  first_child_add_dumps_directory example_delta_options
    [callback.open_root pointer.baton, callback.add_directory "trunk" (pointer.node 0)]
    { nodes := [example_root,
        example_node "trunk" nodekind_t.NK_DIRECTORY nodeaction_t.NA_ADD false],
      output := "", errors := "", headers := [] }
    { nodes := [example_root,
        example_node "trunk" nodekind_t.NK_DIRECTORY nodeaction_t.NA_ADD true,
        example_node "trunk/a.txt" nodekind_t.NK_FILE nodeaction_t.NA_ADD true],
      output := "Node-path: trunk\nNode-kind: dir\nNode-action: add\n\n\n"
        ++ "Node-path: trunk/a.txt\nNode-kind: file\nNode-action: add\n\n\n",
      errors := "", headers := [1, 2] }
    1 (example_node "trunk" nodekind_t.NK_DIRECTORY nodeaction_t.NA_ADD false)
    "trunk" nodeaction_t.NA_ADD "" ""
    (callback.add_file "trunk/a.txt" (pointer.node 1))
    [callback.close_file (pointer.node 2), callback.close_directory (pointer.node 1)]
    (by rfl) (by rfl) (by rfl) (by rfl) (by rfl) (by rfl) (by rfl)
    (fun h => absurd h (by decide)) (by rfl) (by rfl)

/-! ### A file with property changes -/

theorem run_change_file_props (opts : dump_options_t) (file : Nat)
    (props : List (String × Option String)) :
    ∀ (s : edit_state) (node : node_baton_t), s.nodes[file]? = some node →
      ∃ nodes1 list1, run opts s (change_file_props file props)
          = some { nodes := nodes1, output := s.output, errors := s.errors,
                   headers := s.headers }
        ∧ nodes1[file]? = some { node with props := list1 }
        ∧ ∀ x, nodes1.set file x = s.nodes.set file x := by
  induction props with
  | nil =>
    intro s node hnode
    exact ⟨s.nodes, node.props, rfl, hnode, fun _ => rfl⟩
  | cons kv rest ih =>
    intro s node hnode
    have hstep : step opts s (callback.change_file_prop (pointer.node file) kv.1 kv.2)
        = some { nodes := s.nodes.set file
                   { node with props := node.props ++ [property_t.mk kv.1 kv.2] },
                 output := s.output, errors := s.errors, headers := s.headers } := by
      simp only [step, change_file_prop, append_prop, node_of, hnode]
    obtain ⟨nodes1, list1, h1, h2, h3⟩ := ih
      { nodes := s.nodes.set file
          { node with props := node.props ++ [property_t.mk kv.1 kv.2] },
        output := s.output, errors := s.errors, headers := s.headers }
      { node with props := node.props ++ [property_t.mk kv.1 kv.2] }
      (nth_set_self s.nodes file _ node hnode)
    refine ⟨nodes1, list1, ?_, h2, ?_⟩
    · simp only [change_file_props, List.map_cons, run, hstep]
      exact h1
    · intro x
      rw [h3 x]
      exact List.set_set _ _ _ _

theorem run_props_then_close (opts : dump_options_t) (s : edit_state) (file : Nat)
    (node : node_baton_t) (text : String) (props : List (String × Option String))
    (hnode : s.nodes[file]? = some node) (hund : node.dumped = false)
    (htext : ∀ list1, node_header_text opts { node with props := list1 } = some text) :
    run opts s (change_file_props file props ++ [callback.close_file (pointer.node file)])
      = some { nodes := s.nodes.set file { node with dumped := true, props := [] },
               output := s.output ++ text,
               errors := s.errors,
               headers := s.headers ++ [file] } := by
  obtain ⟨nodes1, list1, h1, h2, h3⟩ := run_change_file_props opts file props s node hnode
  rw [run_append, h1]
  simp only [Option.bind, run, step, close_file, node_of, h2, dump_unless_dumped, hund, if_true]
  rw [dump_delta_node_header_some opts _ file _ _ h2 (htext list1)]
  simp only [nth_set_self nodes1 file _ _ h2, nth_set_self s.nodes file _ node hnode,
    List.set_set, h3]

/-- C5, amended: at any point of a diff pass, a file node that is not yet
dumped receives any number of `change_file_prop` callbacks and is closed:
`close_file` writes its header at the end of the output, and the header is
made of the path, kind and action lines and two blank lines whatever the
properties were; no `Prop-content-length` or `Content-length` line is written
and the properties are dropped. Whatever callbacks follow, that header stays
the only one written for the node. -/
theorem file_props_then_close (opts : dump_options_t) (before : List callback)
    (s : edit_state) (file : Nat)
    (node : node_baton_t) (path : String) (action : nodeaction_t) (front base : String)
    (props : List (String × Option String))
    (hreach : run opts edit_state.init before = some s)
    (hnode : s.nodes[file]? = some node)
    (hbaton : node.baton = pointer.baton) (hpath : node.path = some path)
    (haction : node.action = some action) (hkind : node.kind = some nodekind_t.NK_FILE)
    (hund : node.dumped = false)
    (hurl : opts.prefix_is_file = true →
      opts.repo_eurl = front ++ "/" ++ base ∧ '/' ∉ base.data) :
    ∃ s1, run opts s
          (change_file_props file props ++ [callback.close_file (pointer.node file)]) = some s1
      ∧ s1 = { nodes := s.nodes.set file { node with dumped := true, props := [] },
               output := s.output ++ expected_node_header opts.user_prefix
                 (if opts.prefix_is_file = true then base else path) nodekind_t.NK_FILE action,
               errors := s.errors,
               headers := s.headers ++ [file] }
      ∧ ∀ (after : List callback) (s2 : edit_state),
          run opts s1 after = some s2 → s2.headers.count file = 1 := by
  have hzero : s.headers.count file = 0 :=
    (run_sound opts before edit_state.init s hreach headers_sound_init).2.2 file node hnode hund
  refine ⟨_, run_props_then_close opts s file node _ props hnode hund
    (fun list1 => node_header_text_eq opts { node with props := list1 } path
      nodekind_t.NK_FILE action front base hbaton hpath haction hkind hurl), rfl, ?_⟩
  intro after s2 hrun
  obtain ⟨_, hcount⟩ := run_keeps opts after file _ s2 hrun
    ⟨_, nth_set_self s.nodes file _ node hnode, rfl⟩
  rw [hcount]
  simp [List.count_append, List.count_singleton, hzero]

/-- C5, amended, on the file `a.txt` added under the root that receives the
property `svn:eol-style` before it is closed. -/
theorem file_props_then_close_witness :
    ∃ s1, run example_delta_options
          { nodes := [example_root,
              example_node "a.txt" nodekind_t.NK_FILE nodeaction_t.NA_ADD false],
            output := "", errors := "", headers := [] }
          [callback.change_file_prop (pointer.node 1) "svn:eol-style" (some "native"),
           callback.close_file (pointer.node 1)] = some s1
      ∧ s1 = { nodes := [example_root,
                 example_node "a.txt" nodekind_t.NK_FILE nodeaction_t.NA_ADD true],
               output := "" ++ "Node-path: a.txt\nNode-kind: file\nNode-action: add\n\n\n",
               errors := "", headers := [1] }
      ∧ ∀ (after : List callback) (s2 : edit_state),
          run example_delta_options s1 after = some s2 → s2.headers.count 1 = 1 :=
  file_props_then_close example_delta_options
    [callback.open_root pointer.baton, callback.add_file "a.txt" (pointer.node 0)]
    { nodes := [example_root,
        example_node "a.txt" nodekind_t.NK_FILE nodeaction_t.NA_ADD false],
      output := "", errors := "", headers := [] }
    1 (example_node "a.txt" nodekind_t.NK_FILE nodeaction_t.NA_ADD false)
    "a.txt" nodeaction_t.NA_ADD "" "" [("svn:eol-style", some "native")]
    (by rfl) (by rfl) (by rfl) (by rfl) (by rfl) (by rfl) (by rfl)
    (fun h => absurd h (by decide))

end DumpDelta

/-! ## Theorems on `main.c` -/

/-! ### Decimal texts -/

/-- C12: `parse_revnum` returns 0 on `HEADfoo`, which it reads as `HEAD`, on
`-5`, which it reads as the revision -5, and on `3:-1`, which it reads as
`3:HEAD`; after `-r HEADfoo`, `main` goes on with `start = end = -1` where it
should have returned `EXIT_FAILURE`. -/
theorem parse_revnum_accepts_malformed :
    parse_revnum "HEADfoo" 0 (-1) = { ret := 0, start := -1, end_ := -1 }
      ∧ parse_revnum "-5" 0 (-1) = { ret := 0, start := -5, end_ := -5 }
      ∧ parse_revnum "3:-1" 0 (-1) = { ret := 0, start := 3, end_ := -1 }
      ∧ main_revision_option "HEADfoo" dump_options_create
          = Except.ok { temp_dir := none, prefix_ := none, verbosity := 0, flags := 0,
                        start := -1, end_ := -1 } := by
  refine ⟨?_, ?_, ?_, ?_⟩ <;> rfl

/-! ## Further theorems on `dump()` -/

/-! ### The shape of one pass of the loop body -/

theorem dump_do_diff_events (env : collab) (it : Nat) (src dest : Int) :
    ∀ e ∈ (dump_do_diff env it src dest).2,
      e = Event.svn_ra_do_diff2 dest
        ∨ e = Event.reporter_set_path src (decide (src = dest))
        ∨ e = Event.reporter_finish_report := by
  unfold dump_do_diff
  split_ifs <;> simp

theorem dumped_message_events (c : prepared) (rev : Int) :
    ∀ e ∈ dumped_message c rev,
      e = Event.fprintf_stderr ("* Dumped revision " ++ toString rev ++ ".\n") := by
  unfold dumped_message
  split_ifs <;> simp

/-- One pass of the loop body either leaves the function before a log is
obtained, having at most called `log_fetch`, or obtains a log, produces events
for that log only, and, when it does not leave the function, ends in
`next_state`. -/
theorem dump_iteration_shape (P : property_h) (env : collab) (c : prepared) (st : loop_state) :
    ((∀ e ∈ (dump_iteration P env c st).1,
          c.logs_fetched = false ∧ e = Event.log_fetch st.global_rev c.opts.end_)
        ∧ ∃ r, (dump_iteration P env c st).2 = Sum.inl r)
      ∨ (∃ log, obtains env c st log
          ∧ (∀ e ∈ (dump_iteration P env c st).1, iteration_event P c st log e)
          ∧ ∀ st1, (dump_iteration P env c st).2 = Sum.inr st1 → st1 = next_state c st log) := by
  unfold dump_iteration
  by_cases hf : c.logs_fetched = false
  · cases hfetch : env.log_fetch st.it st.global_rev c.opts.end_ with
    | none =>
      left
      have hob : dump_obtain_log env c st
          = Except.error [Event.log_fetch st.global_rev c.opts.end_] := by
        simp only [dump_obtain_log, hf, if_true, hfetch]
      simp only [hob]
      exact ⟨fun e he => ⟨hf, by simpa using he⟩, _, rfl⟩
    | some log =>
      right
      have hob : dump_obtain_log env c st
          = Except.ok (st.logs ++ [log], ((st.logs ++ [log]).length : Int) - 1,
              [Event.log_fetch st.global_rev c.opts.end_]) := by
        simp only [dump_obtain_log, hf, if_true, hfetch]
      have hobt : obtains env c st log := by
        simp only [obtains, hf, Bool.false_eq_true, if_false]
        exact hfetch
      refine ⟨log, hobt, ?_⟩
      simp only [hob, logs_at_append_last]
      have hde := dump_do_diff_events env st.it (dump_diff_base c st.global_rev) log.revision
      have hme := dumped_message_events c log.revision
      rcases hd : dump_do_diff env st.it (dump_diff_base c st.global_rev) log.revision
        with ⟨b, evd⟩
      rw [hd] at hde
      cases b with
      | true =>
        refine ⟨?_, fun st1 h => by simp at h⟩
        intro e he
        simp only [List.mem_append, List.mem_singleton] at he
        unfold iteration_event
        rcases he with (((he | he) | he) | he) | he
        · exact Or.inl ⟨hf, he⟩
        · exact Or.inr (Or.inl he)
        · exact Or.inr (Or.inr (Or.inl he))
        · rcases hde e he with h | h | h
          · exact Or.inr (Or.inr (Or.inr (Or.inl h)))
          · exact Or.inr (Or.inr (Or.inr (Or.inr (Or.inl h))))
          · exact Or.inr (Or.inr (Or.inr (Or.inr (Or.inr (Or.inl h)))))
        · exact Or.inr (Or.inr (Or.inr (Or.inr (Or.inr (Or.inr (Or.inl ⟨true, he⟩))))))
      | false =>
        refine ⟨?_, fun st1 h => ?_⟩
        · intro e he
          simp only [List.mem_append, List.mem_singleton] at he
          unfold iteration_event
          rcases he with ((((he | he) | he) | he) | he) | he
          · exact Or.inl ⟨hf, he⟩
          · exact Or.inr (Or.inl he)
          · exact Or.inr (Or.inr (Or.inl he))
          · rcases hde e he with h | h | h
            · exact Or.inr (Or.inr (Or.inr (Or.inl h)))
            · exact Or.inr (Or.inr (Or.inr (Or.inr (Or.inl h))))
            · exact Or.inr (Or.inr (Or.inr (Or.inr (Or.inr (Or.inl h)))))
          · exact Or.inr (Or.inr (Or.inr (Or.inr (Or.inr (Or.inr (Or.inl ⟨false, he⟩))))))
          · exact Or.inr (Or.inr (Or.inr (Or.inr (Or.inr (Or.inr (Or.inr (hme e he)))))))
        · simp only [Sum.inr.injEq] at h
          rw [← h]
          simp [next_state, hf]
  · have hf2 : c.logs_fetched = true := by simpa using hf
    have hob : dump_obtain_log env c st = Except.ok (st.logs, st.list_idx + 1, []) := by
      simp [dump_obtain_log, hf2]
    simp only [hob]
    cases hlog : logs_at st.logs (st.list_idx + 1) with
    | none =>
      left
      exact ⟨fun e he => by simp at he, _, rfl⟩
    | some log =>
      right
      have hobt : obtains env c st log := by
        simp only [obtains, hf2, if_true]
        exact hlog
      refine ⟨log, hobt, ?_⟩
      simp only
      have hde := dump_do_diff_events env st.it (dump_diff_base c st.global_rev) log.revision
      have hme := dumped_message_events c log.revision
      rcases hd : dump_do_diff env st.it (dump_diff_base c st.global_rev) log.revision
        with ⟨b, evd⟩
      rw [hd] at hde
      cases b with
      | true =>
        refine ⟨?_, fun st1 h => by simp at h⟩
        intro e he
        simp only [List.mem_append, List.mem_singleton, List.nil_append] at he
        unfold iteration_event
        rcases he with ((he | he) | he) | he
        · exact Or.inr (Or.inl he)
        · exact Or.inr (Or.inr (Or.inl he))
        · rcases hde e he with h | h | h
          · exact Or.inr (Or.inr (Or.inr (Or.inl h)))
          · exact Or.inr (Or.inr (Or.inr (Or.inr (Or.inl h))))
          · exact Or.inr (Or.inr (Or.inr (Or.inr (Or.inr (Or.inl h)))))
        · exact Or.inr (Or.inr (Or.inr (Or.inr (Or.inr (Or.inr (Or.inl ⟨true, he⟩))))))
      | false =>
        refine ⟨?_, fun st1 h => ?_⟩
        · intro e he
          simp only [List.mem_append, List.mem_singleton, List.nil_append] at he
          unfold iteration_event
          rcases he with (((he | he) | he) | he) | he
          · exact Or.inr (Or.inl he)
          · exact Or.inr (Or.inr (Or.inl he))
          · rcases hde e he with h | h | h
            · exact Or.inr (Or.inr (Or.inr (Or.inl h)))
            · exact Or.inr (Or.inr (Or.inr (Or.inr (Or.inl h))))
            · exact Or.inr (Or.inr (Or.inr (Or.inr (Or.inr (Or.inl h)))))
          · exact Or.inr (Or.inr (Or.inr (Or.inr (Or.inr (Or.inr (Or.inl ⟨false, he⟩))))))
          · exact Or.inr (Or.inr (Or.inr (Or.inr (Or.inr (Or.inr (Or.inr (hme e he)))))))
        · simp only [Sum.inr.injEq] at h
          rw [← h]
          simp [next_state, hf2]

/-! ### Events of the main loop and of the preparation -/

theorem dump_loop_all (P : property_h) (env : collab) (c : prepared) (q : Event → Prop)
    (inv : loop_state → Prop)
    (hiter : ∀ st, inv st →
      (∀ e ∈ (dump_iteration P env c st).1, q e)
        ∧ ∀ st1, (dump_iteration P env c st).2 = Sum.inr st1 → inv st1) :
    ∀ (fuel : Nat) (st : loop_state), inv st → ∀ e ∈ (dump_loop P env c fuel st).2, q e := by
  intro fuel
  induction fuel with
  | zero =>
    intro st _ e he
    simp [dump_loop] at he
  | succ f ih =>
    intro st hinv e he
    obtain ⟨hq, hnext⟩ := hiter st hinv
    rcases hit : dump_iteration P env c st with ⟨ev, r⟩
    rw [hit] at hq hnext
    simp only [dump_loop, hit] at he
    cases r with
    | inl ret => exact hq e he
    | inr st1 =>
      simp only at he
      by_cases hc : st1.global_rev ≤ c.opts.end_
      · rw [if_pos hc] at he
        rcases List.mem_append.mp he with h | h
        · exact hq e h
        · exact ih st1 (hnext st1 rfl) e h
      · rw [if_neg hc] at he
        exact hq e he

theorem all_pass_of_all (p : Event → Bool) (ev : List Event)
    (h : ev.all p = true) : all_pass p ev := by
  intro e he
  exact List.all_eq_true.mp h e he

theorem all_pass_append (p : Event → Bool) (a b : List Event)
    (ha : all_pass p a) (hb : all_pass p b) : all_pass p (a ++ b) := by
  intro e he
  rcases List.mem_append.mp he with h | h
  · exact ha e h
  · exact hb e h

theorem all_pass_mono (p q : Event → Bool) (ev : List Event)
    (hpq : ∀ e, p e = true → q e = true) (h : all_pass p ev) : all_pass q ev :=
  fun e he => hpq e (h e he)

theorem dump_determine_head_resolve (env : collab) (session : session_t) :
    all_pass is_resolve_event (dump_determine_head env session).2 := by
  unfold dump_determine_head
  split <;> exact all_pass_of_all _ _ rfl

theorem dump_resolve_range_resolve (env : collab) (session : session_t)
    (opts : dump_options_t) :
    match dump_resolve_range env session opts with
    | Except.error ev => all_pass is_resolve_event ev
    | Except.ok (_, ev) => all_pass is_resolve_event ev := by
  have hh := dump_determine_head_resolve env session
  unfold dump_resolve_range
  split_ifs
  · rcases hd : dump_determine_head env session with ⟨r, ev0⟩
    rw [hd] at hh
    cases r with
    | none => exact hh
    | some head =>
      simp only
      split_ifs
      · cases env.log_get_range opts.start head opts.verbosity <;>
          exact all_pass_append _ _ _ hh (all_pass_of_all _ _ rfl)
      · exact all_pass_append _ _ _ hh (all_pass_of_all _ _ rfl)
      · exact all_pass_append _ _ _ hh (all_pass_of_all _ _ rfl)
  · exact all_pass_of_all _ _ rfl
  · exact all_pass_of_all _ _ rfl
  · exact all_pass_of_all _ _ rfl

theorem dump_write_header_prepare (DF : dump_flags) (env : collab) (opts : dump_options_t) :
    all_pass (fun e => is_prepare_event e && !is_log_fetch_all e)
      (dump_write_header DF env opts).2 := by
  unfold dump_write_header
  by_cases hu : opts.flags &&& DF.DF_DUMP_UUID ≠ 0
  · rw [if_pos hu]
    cases dump_fetch_uuid env <;> exact all_pass_of_all _ _ rfl
  · rw [if_neg hu]
    exact all_pass_of_all _ _ rfl

theorem dump_fetch_logs_prepare (DF : dump_flags) (env : collab) (session : session_t)
    (opts : dump_options_t) :
    match dump_fetch_logs DF env session opts with
    | Except.error (_, ev) => all_pass is_prepare_event ev
    | Except.ok (_, ev) => all_pass is_prepare_event ev := by
  have hpre : match dump_prefetch DF env opts with
      | Except.error (_, ev) => all_pass is_prepare_event ev
      | Except.ok (_, _, ev) => all_pass is_prepare_event ev := by
    unfold dump_prefetch
    split_ifs
    · cases env.log_fetch_all opts.start opts.end_ opts.verbosity <;>
        exact all_pass_of_all _ _ rfl
    · exact all_pass_of_all _ _ rfl
  unfold dump_fetch_logs
  rcases h : dump_prefetch DF env opts with ⟨r, ev⟩ | ⟨logs, fetched, ev⟩
  · rw [h] at hpre
    exact hpre
  · rw [h] at hpre
    simp only at hpre ⊢
    cases dump_end_from_logs logs fetched opts <;> exact hpre

theorem is_resolve_is_prepare (e : Event) (h : is_resolve_event e = true) :
    is_prepare_event e = true := by
  cases e <;> first | rfl | exact Bool.noConfusion h

theorem dump_prepare_events (DF : dump_flags) (env : collab) (session : session_t)
    (opts : dump_options_t) :
    match dump_prepare DF env session opts with
    | Except.error (_, ev) => all_pass is_prepare_event ev
    | Except.ok (_, ev) => all_pass is_prepare_event ev := by
  have h1 := dump_resolve_range_resolve env session opts
  unfold dump_prepare
  rcases hr : dump_resolve_range env session opts with ev | ⟨o, ev1⟩
  · rw [hr] at h1
    exact all_pass_mono _ _ _ is_resolve_is_prepare h1
  · rw [hr] at h1
    simp only at h1 ⊢
    have h1p := all_pass_mono _ _ _ is_resolve_is_prepare h1
    cases hs : env.session_check_reparent session o.start with
    | none => exact all_pass_append _ _ _ h1p (all_pass_of_all _ _ rfl)
    | some session1 =>
      simp only
      have h2 := all_pass_append _ _ _ h1p
        (all_pass_of_all is_prepare_event [Event.session_check_reparent o.start] rfl)
      have h3 := dump_fetch_logs_prepare DF env session1 o
      rcases hf : dump_fetch_logs DF env session1 o with ⟨r, ev⟩ | ⟨c, ev3⟩
      · rw [hf] at h3
        exact all_pass_append _ _ _ h2 h3
      · rw [hf] at h3
        simp only at h3 ⊢
        have h4 := all_pass_mono _ is_prepare_event _
          (fun e he => by
            simp only [Bool.and_eq_true] at he
            exact he.1)
          (dump_write_header_prepare DF env c.opts)
        rcases hw : dump_write_header DF env c.opts with ⟨u, ev4⟩
        rw [hw] at h4
        cases u <;> exact all_pass_append _ _ _ (all_pass_append _ _ _ h2 h3) h4

/-! ### The number of a revision header event -/

theorem dump_revision_header_first_line (P : property_h) (log : log_revision_t) (n : Int)
    (opts : dump_options_t) :
    ∃ rest, dump_revision_header P log n opts
      = "Revision-number: " ++ toString n ++ "\n" ++ rest := by
  have haux : ∀ a t x y z : String,
      a ++ ": " ++ t ++ "\n" ++ x ++ y ++ z = a ++ ": " ++ t ++ "\n" ++ (x ++ y ++ z) := by
    intro a t x y z
    simp only [String.append_assoc]
  unfold dump_revision_header
  exact ⟨_, haux _ _ _ _ _⟩

theorem revision_header_events (DF : dump_flags) (P : property_h) (env : collab)
    (session : session_t) (opts : dump_options_t) (fuel : Nat) (n : Int) (text : String)
    (he : Event.dump_revision_header n text ∈ (dump DF P env session opts fuel).2) :
    ∃ rest, text = "Revision-number: " ++ toString n ++ "\n" ++ rest := by
  have hev := dump_prepare_events DF env session opts
  unfold dump at he
  rcases hprep : dump_prepare DF env session opts with ⟨ret, ev⟩ | ⟨c, ev⟩
  · rw [hprep] at he hev
    exact Bool.noConfusion (hev _ he)
  · rw [hprep] at he hev
    simp only at he hev
    rcases List.mem_append.mp he with h | h
    · exact Bool.noConfusion (hev _ h)
    · have hloop := dump_loop_all P env c
        (fun e => ∀ n text, e = Event.dump_revision_header n text →
          ∃ log, text = dump_revision_header P log n c.opts)
        (fun _ => True)
        (fun st _ => by
          refine ⟨fun e he n text hh => ?_, fun _ _ => trivial⟩
          rcases dump_iteration_shape P env c st with ⟨hall, _⟩ | ⟨log, _, hall, _⟩
          · obtain ⟨_, h1⟩ := hall e he
            rw [hh] at h1
            exact Event.noConfusion h1
          · have h1 := hall e he
            unfold iteration_event at h1
            rw [hh] at h1
            rcases h1 with ⟨_, h1⟩ | h1 | h1 | h1 | h1 | h1 | ⟨f, h1⟩ | h1 <;>
              first
                | exact Event.noConfusion h1
                | skip
            simp only [Event.dump_revision_header.injEq] at h1
            refine ⟨log, ?_⟩
            rw [h1.2, h1.1])
        fuel (dump_loop_init c) trivial _ h n text rfl
      obtain ⟨log, hlog⟩ := hloop
      rw [hlog]
      exact dump_revision_header_first_line P log n c.opts

/-! ### The diff base -/

theorem dump_diff_base_eq (c : prepared) (global_rev : Int) :
    dump_diff_base c global_rev
      = expected_diff_base (decide (c.session.prefix_.length > 0)) c.session.file.isSome
          c.opts.start c.opts.end_ global_rev := by
  unfold dump_diff_base expected_diff_base
  have hmax : (if global_rev - 1 < 0 then 0 else global_rev - 1) = max (global_rev - 1) 0 := by
    by_cases h : global_rev - 1 < 0
    · rw [if_pos h, max_eq_right (by omega)]
    · rw [if_neg h, max_eq_left (by omega)]
  simp only [hmax, decide_eq_true_eq]

/-- C14: in every pass of the loop body of `dump()`, whatever the loop
variables, the base revision passed to the tree diff (the `src` of
`dump_do_diff`, handed to `set_path`) is `global_rev - 1` clamped to 0,
replaced, when the session prefix is not empty and that base is below the
effective start, by the effective end if the session is on a single file and by
the effective start otherwise. -/
theorem diff_base_formula (P : property_h) (env : collab) (c : prepared) (st : loop_state)
    (e : Event) (base : Int)
    (he : e ∈ (dump_iteration P env c st).1) (hbase : diff_base_of e = some base) :
    base = expected_diff_base (decide (c.session.prefix_.length > 0)) c.session.file.isSome
      c.opts.start c.opts.end_ st.global_rev := by
  rw [← dump_diff_base_eq]
  rcases dump_iteration_shape P env c st with ⟨hall, _⟩ | ⟨log, _, hall, _⟩
  · obtain ⟨_, h⟩ := hall e he
    rw [h] at hbase
    exact Option.noConfusion hbase
  · have h := hall e he
    unfold iteration_event at h
    rcases h with ⟨_, h⟩ | h | h | h | h | h | ⟨f, h⟩ | h <;> rw [h] at hbase <;>
      first
        | exact Option.noConfusion hbase
        | exact (Option.some.inj hbase).symm

/-- C14 in the first pass of the range 5:8: the base is 4 on the repository
root, the start 5 on a sub-directory, and the end 8 on a single file. -/
theorem diff_base_formula_witness :
    (4 : Int) = expected_diff_base false false 5 8 5
      ∧ (5 : Int) = expected_diff_base true false 5 8 5
      ∧ (8 : Int) = expected_diff_base true true 5 8 5 :=
  ⟨diff_base_formula example_property_h (example_collab 8 none)
      (example_prepared example_session) (dump_loop_init (example_prepared example_session))
      (Event.dump_do_diff 4 5 false) 4 (by decide) rfl,
    diff_base_formula example_property_h (example_collab 8 none)
      (example_prepared example_subpath_session)
      (dump_loop_init (example_prepared example_subpath_session))
      (Event.dump_do_diff 5 5 false) 5 (by decide) rfl,
    diff_base_formula example_property_h (example_collab 8 none)
      (example_prepared example_file_session)
      (dump_loop_init (example_prepared example_file_session))
      (Event.reporter_set_path 8 false) 8 (by decide) rfl⟩

/-! ### Revision 0 of a sub-path -/

theorem resolve_event_facts (e : Event) (h : is_resolve_event e = true) :
    is_log_fetch_all e = false ∧ is_stdout e = false ∧ is_log_fetch e = false := by
  cases e <;> first | exact ⟨rfl, rfl, rfl⟩ | exact Bool.noConfusion h

theorem header_event_facts (e : Event)
    (h : (is_prepare_event e && !is_log_fetch_all e) = true) :
    is_log_fetch_all e = false ∧ is_log_fetch e = false := by
  cases e <;> first | exact ⟨rfl, rfl⟩ | exact Bool.noConfusion h

theorem iteration_event_no_fetch_all (P : property_h) (c : prepared) (st : loop_state)
    (log : log_revision_t) (e : Event) (h : iteration_event P c st log e) :
    is_log_fetch_all e = false ∧ (c.logs_fetched = true → is_log_fetch e = false) := by
  unfold iteration_event at h
  rcases h with ⟨hf, h⟩ | h | h | h | h | h | ⟨f, h⟩ | h
  · rw [h]
    exact ⟨rfl, fun ht => by rw [hf] at ht; exact Bool.noConfusion ht⟩
  all_goals (rw [h]; exact ⟨rfl, fun _ => rfl⟩)

theorem dump_loop_no_fetch_all (P : property_h) (env : collab) (c : prepared) :
    ∀ (fuel : Nat) (st : loop_state),
      ∀ e ∈ (dump_loop P env c fuel st).2,
        is_log_fetch_all e = false ∧ (c.logs_fetched = true → is_log_fetch e = false) := by
  intro fuel st
  refine dump_loop_all P env c
    (fun e => is_log_fetch_all e = false ∧ (c.logs_fetched = true → is_log_fetch e = false))
    (fun _ => True) ?_ fuel st trivial
  intro st _
  refine ⟨fun e he => ?_, fun _ _ => trivial⟩
  rcases dump_iteration_shape P env c st with ⟨hall, _⟩ | ⟨log, _, hall, _⟩
  · obtain ⟨hf, h⟩ := hall e he
    rw [h]
    exact ⟨rfl, fun ht => by rw [hf] at ht; exact Bool.noConfusion ht⟩
  · exact iteration_event_no_fetch_all P c st log e (hall e he)

theorem dump_trace_after_decision (DF : dump_flags) (P : property_h) (env : collab)
    (session session1 : session_t) (opts o : dump_options_t) (ev1 : List Event) (fuel : Nat)
    (hres : dump_resolve_range env session opts = Except.ok (o, ev1))
    (hrep : env.session_check_reparent session o.start = some session1) :
    ∃ rest, (dump DF P env session opts fuel).2
        = ev1 ++ [Event.session_check_reparent o.start]
          ++ (if o.flags &&& DF.DF_INCREMENTAL ≠ 0 ∧ o.start ≠ 0
              then [Event.log_fetch_all o.start o.end_] else [])
          ++ rest
      ∧ (∀ e ∈ rest, is_log_fetch_all e = false)
      ∧ ((o.flags &&& DF.DF_INCREMENTAL ≠ 0 ∧ o.start ≠ 0) →
          ∀ e ∈ rest, is_log_fetch e = false) := by
  unfold dump dump_prepare
  simp only [hres, hrep]
  unfold dump_fetch_logs dump_prefetch
  by_cases hcond : o.flags &&& DF.DF_INCREMENTAL ≠ 0 ∧ o.start ≠ 0
  · rw [if_pos hcond, if_pos hcond]
    cases env.log_fetch_all o.start o.end_ o.verbosity with
    | none => exact ⟨[], by simp, by simp, by simp⟩
    | some logs =>
      simp only
      cases hend : dump_end_from_logs logs true o with
      | none => exact ⟨[], by simp, by simp, by simp⟩
      | some o1 =>
        simp only
        have hhead := dump_write_header_prepare DF env (dump_raise_start session1 o1)
        rcases hw : dump_write_header DF env (dump_raise_start session1 o1) with ⟨r, ev4⟩
        rw [hw] at hhead
        cases r with
        | none =>
          refine ⟨ev4, by simp, fun e he => (header_event_facts e (hhead e he)).1,
            fun _ e he => (header_event_facts e (hhead e he)).2⟩
        | some u =>
          refine ⟨ev4 ++ (dump_loop P env
            (prepared.mk (dump_raise_start session1 o1) session1 logs true) fuel
            (dump_loop_init
              (prepared.mk (dump_raise_start session1 o1) session1 logs true))).2,
            by simp, fun e he => ?_, fun _ e he => ?_⟩
          · rcases List.mem_append.mp he with h | h
            · exact (header_event_facts e (hhead e h)).1
            · exact (dump_loop_no_fetch_all P env _ fuel _ e h).1
          · rcases List.mem_append.mp he with h | h
            · exact (header_event_facts e (hhead e h)).2
            · exact (dump_loop_no_fetch_all P env _ fuel _ e h).2 rfl
  · rw [if_neg hcond, if_neg hcond]
    simp only [dump_end_from_logs, Bool.false_eq_true, if_false]
    have hhead := dump_write_header_prepare DF env (dump_raise_start session1 o)
    rcases hw : dump_write_header DF env (dump_raise_start session1 o) with ⟨r, ev4⟩
    rw [hw] at hhead
    cases r with
    | none =>
      exact ⟨ev4, by simp, fun e he => (header_event_facts e (hhead e he)).1,
        fun h => absurd h hcond⟩
    | some u =>
      refine ⟨ev4 ++ (dump_loop P env
        (prepared.mk (dump_raise_start session1 o) session1 [] false) fuel
        (dump_loop_init (prepared.mk (dump_raise_start session1 o) session1 [] false))).2,
        by simp, fun e he => ?_, fun h => absurd h hcond⟩
      rcases List.mem_append.mp he with h | h
      · exact (header_event_facts e (hhead e h)).1
      · exact (dump_loop_no_fetch_all P env _ fuel _ e h).1

/-- C16: in a run of `dump()` that gets past range resolution and the reparent
check, when the incremental flag is set and the resolved start revision is not
0, `log_fetch_all` is called exactly once, on the resolved range, with nothing
written to the dump stream before it (neither the stream header nor a revision
header), and `log_fetch` is never called; in every other configuration
`log_fetch_all` is never called. -/
theorem dump_prefetch_once (DF : dump_flags) (P : property_h) (env : collab)
    (session session1 : session_t) (opts o : dump_options_t) (ev1 : List Event) (fuel : Nat)
    (hres : dump_resolve_range env session opts = Except.ok (o, ev1))
    (hrep : env.session_check_reparent session o.start = some session1) :
    ((o.flags &&& DF.DF_INCREMENTAL ≠ 0 ∧ o.start ≠ 0) →
        (∃ pre post, (dump DF P env session opts fuel).2
            = pre ++ Event.log_fetch_all o.start o.end_ :: post
          ∧ (∀ e ∈ pre, is_log_fetch_all e = false ∧ is_stdout e = false)
          ∧ (∀ e ∈ post, is_log_fetch_all e = false))
        ∧ ∀ e ∈ (dump DF P env session opts fuel).2, is_log_fetch e = false)
      ∧ (¬ (o.flags &&& DF.DF_INCREMENTAL ≠ 0 ∧ o.start ≠ 0) →
          ∀ e ∈ (dump DF P env session opts fuel).2, is_log_fetch_all e = false) := by
  obtain ⟨rest, htrace, hrest1, hrest2⟩ :=
    dump_trace_after_decision DF P env session session1 opts o ev1 fuel hres hrep
  have hev1 : all_pass is_resolve_event ev1 := by
    have h := dump_resolve_range_resolve env session opts
    rw [hres] at h
    exact h
  have hpre : ∀ e ∈ ev1 ++ [Event.session_check_reparent o.start],
      is_log_fetch_all e = false ∧ is_stdout e = false ∧ is_log_fetch e = false := by
    intro e he
    rcases List.mem_append.mp he with h | h
    · exact resolve_event_facts e (hev1 e h)
    · rw [List.mem_singleton.mp h]
      exact ⟨rfl, rfl, rfl⟩
  refine ⟨fun hcond => ⟨⟨ev1 ++ [Event.session_check_reparent o.start], rest, ?_, ?_, hrest1⟩,
    ?_⟩, fun hcond => ?_⟩
  · rw [htrace, if_pos hcond]
    simp
  · exact fun e he => ⟨(hpre e he).1, (hpre e he).2.1⟩
  · intro e he
    rw [htrace, if_pos hcond] at he
    rcases List.mem_append.mp he with h | h
    · rcases List.mem_append.mp h with h | h
      · exact (hpre e h).2.2
      · rw [List.mem_singleton.mp h]
        rfl
    · exact hrest2 hcond e h
  · intro e he
    rw [htrace, if_neg hcond] at he
    rcases List.mem_append.mp he with h | h
    · rcases List.mem_append.mp h with h | h
      · exact (hpre e h).1
      · simp at h
    · exact hrest1 e h

/-- C16 on the range 5:8: with the incremental flag the trace holds the one
call of `log_fetch_all` for 5:8 ahead of the stream header and no call of
`log_fetch`; without the flag it holds no call of `log_fetch_all`. -/
theorem dump_prefetch_once_witness :
    dump_resolve_range (example_collab 8 none) example_session (example_options 4 5 8)
        = Except.ok (example_options 4 5 8,
            [Event.svn_ra_check_path 5, Event.svn_ra_check_path 8])
      ∧ ((∃ pre post,
            (dump example_flags example_property_h (example_collab 8 none) example_session
              (example_options 4 5 8) 6).2 = pre ++ Event.log_fetch_all 5 8 :: post
            ∧ (∀ e ∈ pre, is_log_fetch_all e = false ∧ is_stdout e = false)
            ∧ (∀ e ∈ post, is_log_fetch_all e = false))
          ∧ ∀ e ∈ (dump example_flags example_property_h (example_collab 8 none)
              example_session (example_options 4 5 8) 6).2, is_log_fetch e = false)
      ∧ (∀ e ∈ (dump example_flags example_property_h (example_collab 8 none)
            example_session (example_options 0 5 8) 6).2, is_log_fetch_all e = false) :=
  ⟨rfl,
    (dump_prefetch_once example_flags example_property_h (example_collab 8 none)
      example_session example_session (example_options 4 5 8) (example_options 4 5 8)
      [Event.svn_ra_check_path 5, Event.svn_ra_check_path 8] 6 rfl rfl).1 (by decide),
    (dump_prefetch_once example_flags example_property_h (example_collab 8 none)
      example_session example_session (example_options 0 5 8) (example_options 0 5 8)
      [Event.svn_ra_check_path 5, Event.svn_ra_check_path 8] 6 rfl rfl).2 (by decide)⟩

/-! ### The index into the pre-fetched list -/

theorem dump_iteration_prefetched (P : property_h) (env : collab) (c : prepared)
    (st : loop_state) (log : log_revision_t) (hf : c.logs_fetched = true)
    (hlog : logs_at st.logs (st.list_idx + 1) = some log) :
    (dump_iteration P env c st).2 = Sum.inl (Ret.returned 1)
      ∨ (dump_iteration P env c st).2
          = Sum.inr { logs := st.logs, global_rev := log.revision + 1,
                      local_rev := st.local_rev + 1, list_idx := st.list_idx + 1,
                      it := st.it + 1 } := by
  have hob : dump_obtain_log env c st = Except.ok (st.logs, st.list_idx + 1, []) := by
    simp [dump_obtain_log, hf]
  unfold dump_iteration
  simp only [hob, hlog]
  rcases dump_do_diff env st.it (dump_diff_base c st.global_rev) log.revision with ⟨b, evd⟩
  cases b
  · right; rfl
  · left; rfl

theorem dump_loop_in_bounds (P : property_h) (env : collab) (c : prepared)
    (last : log_revision_t) (hf : c.logs_fetched = true)
    (hlast : c.logs.getLast? = some last) (hend : c.opts.end_ = last.revision) :
    ∀ (fuel : Nat) (st : loop_state), st.logs = c.logs → 0 ≤ st.list_idx →
      st.list_idx + 1 < c.logs.length →
      (dump_loop P env c fuel st).1 ≠ Ret.out_of_bounds := by
  intro fuel
  induction fuel with
  | zero =>
    intro st _ _ _
    simp [dump_loop]
  | succ f ih =>
    intro st hlogs hidx hlt
    have hnat : (st.list_idx + 1).toNat < c.logs.length := by omega
    have hlog : logs_at st.logs (st.list_idx + 1)
        = some (c.logs.get ⟨(st.list_idx + 1).toNat, hnat⟩) := by
      have h0 : (0 : Int) ≤ st.list_idx + 1 := by omega
      simp only [logs_at, h0, if_true, hlogs]
      exact List.getElem?_eq_getElem hnat
    rcases dump_iteration_prefetched P env c st _ hf hlog with h | h
    · rcases hit : dump_iteration P env c st with ⟨ev, r⟩
      rw [hit] at h
      simp only at h
      simp [dump_loop, hit, h]
    · rcases hit : dump_iteration P env c st with ⟨ev, r⟩
      rw [hit] at h
      simp only at h
      simp only [dump_loop, hit, h]
      split_ifs with hc
      · simp only
        refine ih _ hlogs (by simp only; omega) ?_
        simp only at hc ⊢
        by_contra hge
        have hidx_last : (st.list_idx + 1).toNat = c.logs.length - 1 := by omega
        have hl : c.logs.getLast? = some (c.logs.get ⟨(st.list_idx + 1).toNat, hnat⟩) := by
          rw [List.getLast?_eq_getElem?, ← hidx_last]
          exact List.getElem?_eq_getElem hnat
        rw [hlast, Option.some.injEq] at hl
        rw [hend, hl] at hc
        omega
      · simp

/-- C17: with a pre-fetched list that holds a single log (non-empty, its
revision numbers strictly increasing), the first pass of the main loop of
`dump()` advances `list_idx` from 0 to 1 and reads `logs.elements[1]`, which is
outside of the list: the index equals the size of the list, and the run ends
in the out-of-bounds read before anything is written for the revision. -/
theorem dump_reads_past_single_log (P : property_h) (env : collab) (c : prepared)
    (log : log_revision_t) (fuel : Nat)
    (hf : c.logs_fetched = true) (hl : c.logs = [log]) :
    c.logs ≠ []
      ∧ List.Pairwise (fun a b => a.revision < b.revision) c.logs
      ∧ dump_obtain_log env c (dump_loop_init c) = Except.ok (c.logs, (c.logs.length : Int), [])
      ∧ logs_at c.logs (c.logs.length : Int) = none
      ∧ dump_loop P env c (fuel + 1) (dump_loop_init c) = (Ret.out_of_bounds, []) := by
  have hob : dump_obtain_log env c (dump_loop_init c) = Except.ok (c.logs, 1, []) := by
    simp [dump_obtain_log, hf, dump_loop_init]
  have hat : logs_at c.logs 1 = none := by
    rw [hl]
    rfl
  have hit : dump_iteration P env c (dump_loop_init c) = ([], Sum.inl Ret.out_of_bounds) := by
    unfold dump_iteration
    simp only [hob, hat]
  refine ⟨by rw [hl]; simp, by rw [hl]; simp, ?_, ?_, ?_⟩
  · rw [hob, hl]
    rfl
  · rw [hl]
    rfl
  · simp only [dump_loop, hit]

/-- C17 on the incremental dump of the range 5:5, for which `log_fetch_all`
gives the one log of revision 5: `dump()` ends in the read of
`logs.elements[1]`. -/
theorem dump_reads_past_single_log_witness :
    example_prefetched.logs_fetched = true
      ∧ example_prefetched.logs
        = [{ revision := 5, author := none, date := none, message := none }]
      ∧ dump_prepare example_flags (example_collab 5 none) example_session
          (example_options 4 5 5)
        = Except.ok (example_prefetched,
            [Event.svn_ra_check_path 5, Event.svn_ra_check_path 5,
              Event.session_check_reparent 5, Event.log_fetch_all 5 5,
              Event.printf "SVN-fs-dump-format-version: ", Event.printf "2\n\n"])
      ∧ (dump example_flags example_property_h (example_collab 5 none) example_session
          (example_options 4 5 5) 1).1 = Ret.out_of_bounds
      ∧ (example_prefetched.logs ≠ []
        ∧ List.Pairwise (fun a b => a.revision < b.revision) example_prefetched.logs
        ∧ dump_obtain_log (example_collab 5 none) example_prefetched
            (dump_loop_init example_prefetched)
          = Except.ok (example_prefetched.logs, (example_prefetched.logs.length : Int), [])
        ∧ logs_at example_prefetched.logs (example_prefetched.logs.length : Int) = none
        ∧ dump_loop example_property_h (example_collab 5 none) example_prefetched (0 + 1)
            (dump_loop_init example_prefetched) = (Ret.out_of_bounds, [])) :=
  ⟨rfl, rfl, rfl, rfl,
    dump_reads_past_single_log example_property_h (example_collab 5 none) example_prefetched
      { revision := 5, author := none, date := none, message := none } 0 rfl rfl⟩

/-! ### The node header is written at most once -/

namespace DumpDelta

theorem open_root_root (s sr : edit_state) (b root : pointer)
    (h : open_root s b = some (sr, root)) :
    root = pointer.node s.nodes.length ∧ dumped_in sr.nodes s.nodes.length
      ∧ sr.headers = s.headers := by
  simp only [open_root, dump_delta_node_create, nth_append_length, Option.some.injEq,
    Prod.mk.injEq] at h
  obtain ⟨hs, hroot⟩ := h
  subst hs
  refine ⟨hroot.symm, ⟨_, nth_set_self _ _ _ _ (nth_append_length s.nodes _), rfl⟩, rfl⟩

theorem dump_unless_dumped_guard (opts : dump_options_t) (s : edit_state) (id : Nat)
    (node : node_baton_t) (hnode : s.nodes[id]? = some node) :
    (node.dumped = true → dump_unless_dumped opts s id node = some s)
      ∧ ∀ s1, node.dumped = false → dump_unless_dumped opts s id node = some s1 →
          s1.headers = s.headers ++ [id] ∧ dumped_in s1.nodes id := by
  refine ⟨fun hd => ?_, fun s1 hund hrun => ?_⟩
  · simp [dump_unless_dumped, hd]
  · unfold dump_unless_dumped at hrun
    rw [if_pos hund] at hrun
    unfold dump_delta_node_header at hrun
    rw [hnode] at hrun
    simp only at hrun
    cases htext : node_header_text opts node with
    | none =>
      rw [htext] at hrun
      exact Option.noConfusion hrun
    | some text =>
      rw [htext] at hrun
      simp only [Option.some.injEq] at hrun
      subst hrun
      exact ⟨rfl, ⟨_, nth_set_self _ _ _ _ hnode, rfl⟩⟩

/-- C15: in every state `s2` that a sequence of editor callbacks reaches from
the start of a diff pass, passing through a state `s1`, `dump_delta_node_header`
has run at most once for each node; a node whose `dumped` flag is 0 has had no
header written; a node whose flag is 1 in `s1` keeps the flag and gets no
header between `s1` and `s2`; the root node that `open_root` creates in `s1`
has the flag set and has no header written in any continuation; and the
guarded call `if (!node->dumped) dump_delta_node_header(node)` does nothing for
a node whose flag is 1, and for a node whose flag is 0 records one header and
sets the flag. -/
theorem node_header_at_most_once (opts : dump_options_t) (cs1 cs2 : List callback)
    (s1 s2 : edit_state)
    (h1 : run opts edit_state.init cs1 = some s1) (h2 : run opts s1 cs2 = some s2) :
    (∀ d, s2.headers.count d ≤ 1)
      ∧ (∀ d node, s2.nodes[d]? = some node → node.dumped = false → s2.headers.count d = 0)
      ∧ (∀ d, dumped_in s1.nodes d →
          dumped_in s2.nodes d ∧ s2.headers.count d = s1.headers.count d)
      ∧ (∀ b sr root cs3 s3, open_root s1 b = some (sr, root) → run opts sr cs3 = some s3 →
          root = pointer.node s1.nodes.length ∧ dumped_in s3.nodes s1.nodes.length
            ∧ s3.headers.count s1.nodes.length = 0)
      ∧ (∀ id node, s1.nodes[id]? = some node →
          (node.dumped = true → dump_unless_dumped opts s1 id node = some s1)
            ∧ ∀ s, node.dumped = false → dump_unless_dumped opts s1 id node = some s →
                s.headers = s1.headers ++ [id] ∧ dumped_in s.nodes id) := by
  have hs1 := run_sound opts cs1 _ _ h1 headers_sound_init
  have hs2 := run_sound opts cs2 _ _ h2 hs1
  refine ⟨hs2.1, hs2.2.2, fun d hd => run_keeps opts cs2 d _ _ h2 hd, ?_,
    fun id node hnode => dump_unless_dumped_guard opts s1 id node hnode⟩
  intro b sr root cs3 s3 hroot h3
  obtain ⟨hr, hd, hh⟩ := open_root_root s1 sr b root hroot
  obtain ⟨hd3, hc3⟩ := run_keeps opts cs3 _ _ _ h3 hd
  refine ⟨hr, hd3, ?_⟩
  rw [hc3, hh]
  exact hs1.2.1 _ (le_refl _)

/-- C15 on the directory `trunk` added under the root with the file
`trunk/a.txt`: the headers written are those of the nodes 1 and 2, once each,
and none for the root. -/
theorem node_header_at_most_once_witness :
    run example_delta_options edit_state.init
        [callback.open_root pointer.baton, callback.add_directory "trunk" (pointer.node 0)]
      = some { nodes := [example_root,
                 example_node "trunk" nodekind_t.NK_DIRECTORY nodeaction_t.NA_ADD false],
               output := "", errors := "", headers := [] }
      ∧ (∀ d, ([1, 2] : List Nat).count d ≤ 1)
      ∧ (∀ d, dumped_in [example_root,
            example_node "trunk" nodekind_t.NK_DIRECTORY nodeaction_t.NA_ADD false] d →
          dumped_in [example_root,
              example_node "trunk" nodekind_t.NK_DIRECTORY nodeaction_t.NA_ADD true,
              example_node "trunk/a.txt" nodekind_t.NK_FILE nodeaction_t.NA_ADD true] d
            ∧ ([1, 2] : List Nat).count d = ([] : List Nat).count d) :=
  ⟨rfl,
    (node_header_at_most_once example_delta_options
      [callback.open_root pointer.baton, callback.add_directory "trunk" (pointer.node 0)]
      [callback.add_file "trunk/a.txt" (pointer.node 1), callback.close_file (pointer.node 2),
        callback.close_directory (pointer.node 1)]
      { nodes := [example_root,
          example_node "trunk" nodekind_t.NK_DIRECTORY nodeaction_t.NA_ADD false],
        output := "", errors := "", headers := [] }
      { nodes := [example_root,
          example_node "trunk" nodekind_t.NK_DIRECTORY nodeaction_t.NA_ADD true,
          example_node "trunk/a.txt" nodekind_t.NK_FILE nodeaction_t.NA_ADD true],
        output := "Node-path: trunk\nNode-kind: dir\nNode-action: add\n\n\n"
          ++ "Node-path: trunk/a.txt\nNode-kind: file\nNode-action: add\n\n\n",
        errors := "", headers := [1, 2] }
      (by rfl) (by rfl)).1,
    (node_header_at_most_once example_delta_options
      [callback.open_root pointer.baton, callback.add_directory "trunk" (pointer.node 0)]
      [callback.add_file "trunk/a.txt" (pointer.node 1), callback.close_file (pointer.node 2),
        callback.close_directory (pointer.node 1)]
      { nodes := [example_root,
          example_node "trunk" nodekind_t.NK_DIRECTORY nodeaction_t.NA_ADD false],
        output := "", errors := "", headers := [] }
      { nodes := [example_root,
          example_node "trunk" nodekind_t.NK_DIRECTORY nodeaction_t.NA_ADD true,
          example_node "trunk/a.txt" nodekind_t.NK_FILE nodeaction_t.NA_ADD true],
        output := "Node-path: trunk\nNode-kind: dir\nNode-action: add\n\n\n"
          ++ "Node-path: trunk/a.txt\nNode-kind: file\nNode-action: add\n\n\n",
        errors := "", headers := [1, 2] }
      (by rfl) (by rfl)).2.2.1⟩

end DumpDelta

end Rsvndump
